import Mathlib

/-!
Verification of the MeshTalk mesh relay core against its specification.

The development shallowly embeds the Python sources of the repository:

* `MeshTalk.Mesh`   — `server/mesh_relay.py`: the relay state machine
  (`_handle_message`, `_relay_message`, `_broadcast_message`,
  `_maintain_nodes`, the originator operations).
* `MeshTalk.Voice`  — `server/ai_voice.py`: the VAD state machine and the
  fallback denoising pipeline (`AudioProcessor.process_audio`,
  `AudioBufferProcessor.process_buffer`).
* `MeshTalk.Crypto` — `server/crypto.py`: the pure-Python fallback branch
  (`KYBER_AVAILABLE = False`, `NACL_AVAILABLE = False`), which is the only
  branch whose code lives in this repository; the library-backed branches
  call external packages.

Modelling conventions:

* Python `bytes` are `List Nat` (each entry a byte value).
* Python `float` timestamps and probabilities are modelled as `ℚ`.
* Python `dict` iteration order (insertion order) is modelled by
  association lists; `dict[k] = v` keeps the position of an existing key
  and appends a new one.
* A UDP `sendto` is recorded as a `Send` event carrying the destination
  address/port, the public key handed to `encrypt_message`, and the
  message; the encryption itself is verified separately in
  `MeshTalk.Crypto`.
* `uuid.uuid4()` and `os.urandom` results are passed in as explicit
  parameters (`freshId`, explicit nonce/secret arguments).
* Message payload strings that the relay parses with `json.loads` are
  modelled by their parse result (`Content`); a payload whose parse
  raises is `Content.malformed` (the exception is caught by the handler
  after the dedup insertion, aborting dispatch and relay).
-/

namespace MeshTalk

namespace Mesh

/-- Node dataclass from `mesh_relay.py` (id, address, port, last_seen,
public_key, is_active, with `is_active` defaulting to `True`). -/
structure Node where
  id : String
  address : String
  port : Nat
  last_seen : ℚ
  public_key : String
  is_active : Bool := true
deriving DecidableEq

/-- Parse result of a message's `content` string.  `discovery` and
`routing` payloads are JSON in the source; `raw` carries the unparsed
string of `text`/`voice` payloads; `malformed` stands for a payload on
which `json.loads` (or dataclass construction) raises. -/
inductive Content where
  | raw (s : String)
  | discovery (port : Nat) (public_key : String)
  | routing (nodes : List Node)
  | malformed
deriving DecidableEq

/-- Message dataclass from `mesh_relay.py`. `ttl` is a Python int
(defaulting to 3).  `type` is one of "text", "voice", "discovery",
"routing" on the happy path but is an arbitrary string. -/
structure Message where
  id : String
  sender_id : String
  recipient_id : String
  type : String
  content : Content
  timestamp : ℚ
  ttl : Int := 3
deriving DecidableEq

/-- A recorded `socket.sendto` of one encrypted message: destination
address and port, the public key passed to `encrypt_message`, and the
message that was serialized and encrypted. -/
structure Send where
  address : String
  port : Nat
  key : String
  msg : Message
deriving DecidableEq

/-- The mutable state of a `MeshRelay` instance: identity, the `nodes`
dict (insertion-ordered) and the `processed_messages` set (modelled as a
duplicate-free list), plus the configuration read in `__init__`. -/
structure RelayState where
  node_id : String
  public_key : String
  port : Nat
  batman_available : Bool
  nodes : List (String × Node)
  processed_messages : List String
deriving DecidableEq

/-- Python `self.nodes[k] = v`: replace in place if the key exists,
append otherwise (dicts preserve insertion order). -/
def dictInsert (d : List (String × Node)) (k : String) (v : Node) :
    List (String × Node) :=
  if d.any (fun p => p.1 == k) then
    d.map (fun p => if p.1 == k then (k, v) else p)
  else d ++ [(k, v)]

/-- Python `k in self.nodes`. -/
def dictContains (d : List (String × Node)) (k : String) : Bool :=
  d.any (fun p => p.1 == k)

/-- Python `set.add`: no-op when the element is present. -/
def setInsert (s : List String) (x : String) : List String :=
  if s.contains x then s else s ++ [x]

/-- `MeshRelay._send_to_all_nodes`: one encrypted copy to every known
node other than self that is active, encrypted under that node's key. -/
def sendToAllNodes (st : RelayState) (m : Message) : List Send :=
  st.nodes.filterMap (fun p =>
    if p.1 != st.node_id && p.2.is_active then
      some ⟨p.2.address, p.2.port, p.2.public_key, m⟩
    else none)

/-- `MeshRelay._broadcast_message`: record the id as processed, then in
BATMAN-Adv mode send once to the broadcast address encrypted to our own
public key, otherwise unicast to all known active nodes. -/
def broadcastMessage (st : RelayState) (m : Message) :
    RelayState × List Send :=
  let st1 := { st with
    processed_messages := setInsert st.processed_messages m.id }
  if st1.batman_available then
    (st1, [⟨"192.168.199.255", st1.port, st1.public_key, m⟩])
  else
    (st1, sendToAllNodes st1 m)

/-- `MeshRelay._relay_message`: nothing when `ttl <= 0`; otherwise one
copy to every node that is not self, not the message's sender, and
active, each encrypted under that node's own public key. -/
def relayMessage (st : RelayState) (m : Message) : List Send :=
  if m.ttl ≤ 0 then []
  else
    st.nodes.filterMap (fun p =>
      if p.1 != st.node_id && p.1 != m.sender_id && p.2.is_active then
        some ⟨p.2.address, p.2.port, p.2.public_key, m⟩
      else none)

/-- `MeshRelay._send_routing_info`: broadcast a fresh `routing` message
(ttl 2) carrying the currently active node records. -/
def sendRoutingInfo (st : RelayState) (freshId : String) (now : ℚ) :
    RelayState × List Send :=
  let nodesInfo := (st.nodes.filter (fun p => p.2.is_active)).map
    (fun p => p.2)
  let m : Message :=
    { id := freshId, sender_id := st.node_id,
      recipient_id := "broadcast", type := "routing",
      content := Content.routing nodesInfo, timestamp := now, ttl := 2 }
  broadcastMessage st m

/-- `MeshRelay._send_discovery`: broadcast a fresh `discovery` message
(ttl 3) carrying our port and public key. -/
def sendDiscovery (st : RelayState) (freshId : String) (now : ℚ) :
    RelayState × List Send :=
  let m : Message :=
    { id := freshId, sender_id := st.node_id,
      recipient_id := "broadcast", type := "discovery",
      content := Content.discovery st.port st.public_key,
      timestamp := now, ttl := 3 }
  broadcastMessage st m

/-- `MeshRelay._handle_discovery`: upsert the sender into the node table
(`last_seen = now`, active), then send routing info back unless the
message is our own.  `none` models `json.loads(message.content)`
raising, which aborts the surrounding `_handle_message` body. -/
def handleDiscovery (st : RelayState) (m : Message) (addr : String)
    (now : ℚ) (freshId : String) : Option (RelayState × List Send) :=
  match m.content with
  | Content.discovery port pk =>
    let node : Node :=
      { id := m.sender_id, address := addr, port := port,
        last_seen := now, public_key := pk, is_active := true }
    let st1 := { st with nodes := dictInsert st.nodes m.sender_id node }
    if m.sender_id != st1.node_id then
      some (sendRoutingInfo st1 freshId now)
    else some (st1, [])
  | _ => none

/-- `MeshRelay._handle_routing`: insert every referenced node that is
not self and not already known, with `last_seen` updated to now.
`none` models `json.loads` raising. -/
def handleRouting (st : RelayState) (m : Message) (now : ℚ) :
    Option RelayState :=
  match m.content with
  | Content.routing ns =>
    let nodes2 := ns.foldl (fun d n =>
      if n.id != st.node_id && !(dictContains d n.id) then
        dictInsert d n.id { n with last_seen := now }
      else d) st.nodes
    some { st with nodes := nodes2 }
  | _ => none

/-- `MeshRelay._handle_data`: a text/voice message is delivered locally
exactly when it is addressed to this node or to "broadcast". -/
def handleData (st : RelayState) (m : Message) : List Message :=
  if m.recipient_id == st.node_id || m.recipient_id == "broadcast" then
    [m]
  else []

/-- The state after `self.processed_messages.add(message.id)` in
`_handle_message`. -/
def markProcessed (st : RelayState) (msgId : String) : RelayState :=
  { st with processed_messages := setInsert st.processed_messages msgId }

/-- The "Process based on message type" block of
`MeshRelay._handle_message`: returns the state after dispatch, the
locally delivered messages, and the sends performed by a routing reply.
`none` models a dispatch handler raising (caught by the surrounding
`except`, aborting the rest of the handler body). -/
def dispatchMessage (st1 : RelayState) (m : Message) (addr : String)
    (now : ℚ) (freshId : String) :
    Option (RelayState × List Message × List Send) :=
  if m.type == "discovery" then
    (handleDiscovery st1 m addr now freshId).map (fun r => (r.1, [], r.2))
  else if m.type == "routing" then
    (handleRouting st1 m now).map (fun r => (r, [], []))
  else if m.type == "text" || m.type == "voice" then
    some (st1, handleData st1 m, [])
  else some (st1, [], [])

/-- `MeshRelay._handle_message` after successful decrypt/parse: dedup
check, insertion into `processed_messages`, dispatch by type, then TTL
decrement and relay.  Returns the new state, the locally delivered
messages, and every `sendto` performed (routing replies first, then the
relayed copies, matching execution order).  A dispatch that raises
(malformed JSON payload) is caught by the handler's `except`: the
message is already marked processed but nothing further happens. -/
def handleMessage (st : RelayState) (m : Message) (addr : String)
    (now : ℚ) (freshId : String) :
    RelayState × List Message × List Send :=
  if st.processed_messages.contains m.id then (st, [], [])
  else
    let st1 := markProcessed st m.id
    match dispatchMessage st1 m addr now freshId with
    | none => (st1, [], [])
    | some (st2, dels, aux) =>
      if m.ttl > 0 then
        let m2 := { m with ttl := m.ttl - 1 }
        (st2, dels, aux ++ relayMessage st2 m2)
      else (st2, dels, aux)

/-- One received datagram: the decrypt/decode result (`none` when
`decrypt_message` or `json.loads`/`Message(**...)` raised, in which case
the receive loop logs and continues), the arrival time and the fresh
uuid available for a routing reply. -/
structure Datagram where
  parsed : Option (Message × String)
  now : ℚ
  freshId : String

/-- The receive loop over a stream of datagrams, recording (in order)
which message ids were dispatched, i.e. passed the dedup check and
reached the type-based dispatch. -/
def processStream (st : RelayState) : List Datagram → RelayState × List String
  | [] => (st, [])
  | d :: ds =>
    match d.parsed with
    | none => processStream st ds
    | some (m, addr) =>
      if st.processed_messages.contains m.id then
        processStream (handleMessage st m addr d.now d.freshId).1 ds
      else
        ((processStream (handleMessage st m addr d.now d.freshId).1 ds).1,
         m.id :: (processStream (handleMessage st m addr d.now d.freshId).1 ds).2)

/-- The staleness marking of `_maintain_nodes`: any node with
`now - last_seen > 60` has `is_active` set to false (the source guards
the assignment with `if node.is_active`, which only suppresses
re-logging; the resulting record is the same).  No entry is removed. -/
def maintMark (now : ℚ) (nodes : List (String × Node)) :
    List (String × Node) :=
  nodes.map (fun p =>
    if now - p.2.last_seen > 60 then (p.1, { p.2 with is_active := false })
    else p)

/-- Python `str.split('-')` on the character list of a string. -/
def splitDash : List Char → List (List Char)
  | [] => [[]]
  | c :: rest =>
    let r := splitDash rest
    if c = '-' then [] :: r
    else
      match r with
      | [] => [[c]]
      | g :: gs => (c :: g) :: gs

/-- Python string `<`: lexicographic comparison by code point. -/
def lexLt : List Char → List Char → Bool
  | [], [] => false
  | [], _ :: _ => true
  | _ :: _, [] => false
  | a :: as, b :: bs =>
    if a.toNat < b.toNat then true
    else if b.toNat < a.toNat then false
    else lexLt as bs

/-- Python `int(x)` on a float: truncation toward zero. -/
def pyInt (q : ℚ) : Int := q.num.tdiv q.den

/-- Decimal digits of a natural number (fuel-indexed so that the kernel
can evaluate it; `natChars` supplies sufficient fuel). -/
def natDigitsAux : Nat → Nat → List Char
  | 0, _ => []
  | fuel + 1, n =>
    if n < 10 then [Char.ofNat (48 + n)]
    else natDigitsAux fuel (n / 10) ++ [Char.ofNat (48 + n % 10)]

/-- Python `str` of a nonnegative integer. -/
def natChars (n : Nat) : List Char := natDigitsAux (n + 1) n

/-- Python `str` of an int. -/
def intChars (i : Int) : List Char :=
  if i < 0 then '-' :: natChars i.natAbs else natChars i.toNat

/-- The dedup garbage collection of `_maintain_nodes`: keep `msg_id`
exactly when the Python string comparison
`msg_id.split('-')[-1] > str(int(current_time - 300))` holds, i.e. when
the rendered timestamp is lexicographically below the final hyphen
segment of the id. -/
def gcProcessed (now : ℚ) (processed : List String) : List String :=
  let ts := intChars (pyInt (now - 300))
  processed.filter (fun msgId =>
    lexLt ts ((splitDash msgId.data).getLastD []))

/-- One pass of the `_maintain_nodes` loop body: mark stale nodes, send
a discovery message (fresh uuid), then garbage-collect
`processed_messages`. -/
def maintainPass (st : RelayState) (now : ℚ) (freshId : String) :
    RelayState × List Send :=
  let st1 := { st with nodes := maintMark now st.nodes }
  let r := sendDiscovery st1 freshId now
  let st3 := { r.1 with
    processed_messages := gcProcessed now r.1.processed_messages }
  (st3, r.2)

/-- `MeshRelay.send_text_message`: broadcast via `_broadcast_message`,
or unicast to a known recipient (without touching
`processed_messages`), or drop with an error log. -/
def sendTextMessage (st : RelayState) (freshId : String) (now : ℚ)
    (recipient_id text_content : String) : RelayState × List Send :=
  let m : Message :=
    { id := freshId, sender_id := st.node_id,
      recipient_id := recipient_id, type := "text",
      content := Content.raw text_content, timestamp := now, ttl := 3 }
  if recipient_id == "broadcast" then broadcastMessage st m
  else
    match st.nodes.find? (fun p => p.1 == recipient_id) with
    | some p => (st, [⟨p.2.address, p.2.port, p.2.public_key, m⟩])
    | none => (st, [])

/-- A concrete peer whose last traffic was at time 0, used to evaluate
the staleness marking at the 60-second boundary. -/
def peerB : Node :=
  { id := "b", address := "10.0.0.9", port := 8000, last_seen := 0,
    public_key := "bk", is_active := true }

/-- A uuid4-format message id whose final hyphen segment starts with a
hex letter; the GC string comparison retains it no matter how old it
is. -/
def oldMsgId : String := "11111111-2222-3333-4444-aaaaaaaaaaaa"

/-- A uuid4-format message id whose final hyphen segment starts with
the digit 0; the GC string comparison drops it even when it was just
created. -/
def freshMsgId : String := "99999999-8888-7777-6666-000000000bbb"

/-- Default entry used to state per-index properties of the node
table. -/
def dfltEntry : String × Node :=
  ("", { id := "", address := "", port := 0, last_seen := 0,
         public_key := "", is_active := false })

/-- Echo suppression property of an originating operation: the fresh
message id is recorded in `processed_messages`, so any copy of the
message flooded back to this node is discarded by the dedup check
without touching the state, delivering, or sending anything. -/
def echoSuppressed (freshId : String) (r : RelayState × List Send) :
    Prop :=
  r.1.processed_messages.contains freshId = true ∧
  ∀ (m : Message) (addr : String) (now2 : ℚ) (f2 : String),
    m.id = freshId → handleMessage r.1 m addr now2 f2 = (r.1, [], [])

/-- `MeshRelay.send_voice_data`: as `send_text_message` but type
"voice" and ttl 1. -/
def sendVoiceData (st : RelayState) (freshId : String) (now : ℚ)
    (recipient_id voice_data : String) : RelayState × List Send :=
  let m : Message :=
    { id := freshId, sender_id := st.node_id,
      recipient_id := recipient_id, type := "voice",
      content := Content.raw voice_data, timestamp := now, ttl := 1 }
  if recipient_id == "broadcast" then broadcastMessage st m
  else
    match st.nodes.find? (fun p => p.1 == recipient_id) with
    | some p => (st, [⟨p.2.address, p.2.port, p.2.public_key, m⟩])
    | none => (st, [])

end Mesh

/-- Python `bytes` values: a list of byte values. -/
abbrev Bytes := List Nat

namespace Voice

/-- `FRAME_SIZE = 480` from `ai_voice.py`. -/
def FRAME_SIZE : Nat := 480

/-- `DENOISE_BUFFER = 8` from `ai_voice.py`. -/
def DENOISE_BUFFER : Nat := 8

/-- The default `vad_threshold = 0.5` of `AudioProcessor.__init__`,
written as the reduced rational 1/2 so the kernel can evaluate
comparisons against it. -/
def VAD_THRESHOLD : ℚ := Rat.mk' 1 2

/-- `self.min_speech_frames = 10` from `AudioProcessor.__init__`. -/
def MIN_SPEECH_FRAMES : Nat := 10

/-- `self.min_silence_frames = 20` from `AudioProcessor.__init__`. -/
def MIN_SILENCE_FRAMES : Nat := 20

/-- The speech-tracking state of `AudioProcessor` (`vad_threshold`,
`is_speech`, `speech_frames`, `silence_frames`), with the defaults
assigned in `__init__`. -/
structure VadState where
  vad_threshold : ℚ := VAD_THRESHOLD
  is_speech : Bool := false
  speech_frames : Nat := 0
  silence_frames : Nat := 0
deriving DecidableEq

/-- The "Update speech state" block of `AudioProcessor.process_audio`:
a voiced observation (`vad_prob >= vad_threshold`) increments
`speech_frames`, zeroes `silence_frames`, and raises `is_speech` once
ten consecutive voiced frames have been seen; an unvoiced observation
does the symmetric update with the twenty-frame silence debounce. -/
def vadUpdate (st : VadState) (vad_prob : ℚ) : VadState :=
  if st.vad_threshold ≤ vad_prob then
    let sf := st.speech_frames + 1
    { st with
      speech_frames := sf
      silence_frames := 0
      is_speech := if MIN_SPEECH_FRAMES ≤ sf then true else st.is_speech }
  else
    let sil := st.silence_frames + 1
    { st with
      silence_frames := sil
      speech_frames := 0
      is_speech :=
        if MIN_SILENCE_FRAMES ≤ sil then false else st.is_speech }

/-- Fold of `vadUpdate` over a sequence of per-frame VAD
probabilities. -/
def runVad (st : VadState) (ps : List ℚ) : VadState :=
  ps.foldl vadUpdate st

/-- The successive states reached while folding `vadUpdate` over a
sequence of VAD probabilities (one state per consumed frame). -/
def vadTrace (st : VadState) : List ℚ → List VadState
  | [] => []
  | p :: ps =>
    let st1 := vadUpdate st p
    st1 :: vadTrace st1 ps

/-- One step of the voiced-run scan: a voiced frame (threshold
comparison as in `vadUpdate`) extends the current run and updates the
maximum; an unvoiced frame resets the current run. -/
def scanStep (th : ℚ) (cb : Nat × Nat) (p : ℚ) : Nat × Nat :=
  if th ≤ p then (cb.1 + 1, max cb.2 (cb.1 + 1)) else (0, cb.2)

/-- Scan of a probability sequence tracking the current and the maximal
run of consecutive voiced frames, starting from a current run of
`cur`. -/
def voicedRunScan (th : ℚ) (fs : List ℚ) (cur : Nat) : Nat × Nat :=
  fs.foldl (scanStep th) (cur, cur)

/-- The longest run of consecutive voiced frames in a probability
sequence. -/
def maxVoicedRun (th : ℚ) (fs : List ℚ) : Nat := (voicedRunScan th fs 0).2

/-- Python `struct.unpack("<Nh", data)`: 16-bit signed little-endian
samples.  Only called on even-length inputs (an odd length raises
`struct.error`, handled at the call sites). -/
def unpackInt16 : Bytes → List Int
  | b0 :: b1 :: rest =>
    (let v := b0 + 256 * b1
     if 32768 ≤ v then (v : Int) - 65536 else (v : Int)) :: unpackInt16 rest
  | _ => []

/-- Two little-endian bytes of one int16 sample
(`struct.pack("<Nh", ...)`). -/
def int16Bytes (i : Int) : List Nat :=
  let u := (i % 65536).toNat
  [u % 256, u / 256]

/-- `struct.pack("<Nh", *samples)`. -/
def packInt16 (xs : List Int) : Bytes := (xs.map int16Bytes).flatten

/-- Truncation toward zero, as in a numpy float-to-int cast. -/
def ratTrunc (q : ℚ) : Int := q.num.tdiv q.den

/-- numpy `astype(np.int16)` on a float: truncate toward zero and wrap
into the int16 range. -/
def toInt16 (q : ℚ) : Int := ((ratTrunc q + 32768) % 65536) - 32768

/-- `np.mean` of a list (floats modelled as rationals). -/
def mean (xs : List ℚ) : ℚ := xs.sum / (xs.length : ℚ)

/-- `np.clip(x, -1.0, 1.0)`. -/
def clip1 (q : ℚ) : ℚ := max (-1) (min 1 q)

/-- Pointwise sum of two sample rows (`np.vstack` + summation). -/
def addRows (a b : List ℚ) : List ℚ := List.zipWith (· + ·) a b

/-- Column sums of equal-length rows. -/
def sumRows (len : Nat) (rows : List (List ℚ)) : List ℚ :=
  rows.foldl addRows (List.replicate len 0)

/-- `np.mean(np.vstack(rows), axis=0)` for equal-length rows. -/
def colMeans (len : Nat) (rows : List (List ℚ)) : List ℚ :=
  (sumRows len rows).map (fun s => s / (rows.length : ℚ))

/-- `RNNoiseProcessor._process_frame_fallback` (the in-repository
branch, `RNNOISE_AVAILABLE = False`): rolling-buffer spectral
subtraction and energy-based VAD.  The first component threads
`self.buffer`.  The two `(buffer, frame, 0)` results model the broad
`except` returning `(frame_data, 0.0)`: an odd-length frame makes
`struct.unpack` raise before the buffer is touched, and rows of unequal
length make `np.vstack`/broadcasting raise after the buffer was already
mutated. -/
def processFrameFallback (buffer : List (List ℚ)) (frame : Bytes) :
    List (List ℚ) × Bytes × ℚ :=
  if frame.length % 2 ≠ 0 then (buffer, frame, 0)
  else
    let float_samples := (unpackInt16 frame).map (fun (i : Int) => (i : ℚ) / 32768)
    let buf1 := buffer ++ [float_samples]
    let buf2 := if DENOISE_BUFFER < buf1.length then buf1.drop 1 else buf1
    if 2 ≤ buf2.length then
      let prev := buf2.dropLast
      if prev.all (fun r => r.length == float_samples.length) then
        let noise := (colMeans float_samples.length prev).map
          (fun x => x * (1 / 10))
        let denoised := List.zipWith (fun s n => clip1 (s - n))
          float_samples noise
        let energy := mean (denoised.map (fun x => x * x))
        let vad := min 1 (energy * 20)
        (buf2, packInt16 (denoised.map (fun x => toInt16 (x * 32768))), vad)
      else (buf2, frame, 0)
    else
      let denoised := float_samples
      let energy := mean (denoised.map (fun x => x * x))
      let vad := min 1 (energy * 20)
      (buf2, packInt16 (denoised.map (fun x => toInt16 (x * 32768))), vad)

/-- Joint state of the module: the denoiser's rolling buffer and the
speech-detection state. -/
structure ProcState where
  buffer : List (List ℚ) := []
  vad : VadState := {}
deriving DecidableEq

/-- `AudioProcessor.process_audio`: pad short input with zero bytes or
truncate long input to the 960-byte frame size, denoise, update the
speech state, and return the denoised frame plus the current
`is_speech` flag. -/
def processAudio (st : ProcState) (audio_data : Bytes) :
    ProcState × Bytes × Bool :=
  let fsb := FRAME_SIZE * 2
  let audio :=
    if audio_data.length ≠ fsb then
      if audio_data.length < fsb then
        audio_data ++ List.replicate (fsb - audio_data.length) 0
      else audio_data.take fsb
    else audio_data
  let r := processFrameFallback st.buffer audio
  let vad1 := vadUpdate st.vad r.2.2
  (⟨r.1, vad1⟩, r.2.1, vad1.is_speech)

/-- `AudioBufferProcessor.process_buffer`: process each full 960-byte
frame, then zero-pad the trailing remainder, process it, and append
only the prefix matching the remainder's length. -/
def processBuffer (st : ProcState) (audio_buffer : Bytes) :
    ProcState × Bytes :=
  let fsb := FRAME_SIZE * 2
  let num_frames := audio_buffer.length / fsb
  let frames := (List.range num_frames).map
    (fun i => (audio_buffer.drop (i * fsb)).take fsb)
  let folded := frames.foldl
    (fun acc f =>
      let r := processAudio acc.1 f
      (r.1, acc.2 ++ r.2.1))
    (st, ([] : Bytes))
  let remaining := audio_buffer.length % fsb
  if 0 < remaining then
    let frame := audio_buffer.drop (num_frames * fsb)
    let padded := frame ++ List.replicate (fsb - frame.length) 0
    let r := processAudio folded.1 padded
    (r.1, folded.2 ++ r.2.1.take frame.length)
  else folded

end Voice

namespace Crypto

/-- 2 to the 32, the modulus of 32-bit words. -/
def M32 : Nat := 4294967296

/-- Right rotation of a 32-bit word. -/
def rotr32 (n x : Nat) : Nat := ((x >>> n) ||| (x <<< (32 - n))) % M32

/-- SHA-256 round constants. -/
def shaK : List Nat :=
  [0x428A2F98, 0x71374491, 0xB5C0FBCF, 0xE9B5DBA5,
   0x3956C25B, 0x59F111F1, 0x923F82A4, 0xAB1C5ED5,
   0xD807AA98, 0x12835B01, 0x243185BE, 0x550C7DC3,
   0x72BE5D74, 0x80DEB1FE, 0x9BDC06A7, 0xC19BF174,
   0xE49B69C1, 0xEFBE4786, 0x0FC19DC6, 0x240CA1CC,
   0x2DE92C6F, 0x4A7484AA, 0x5CB0A9DC, 0x76F988DA,
   0x983E5152, 0xA831C66D, 0xB00327C8, 0xBF597FC7,
   0xC6E00BF3, 0xD5A79147, 0x06CA6351, 0x14292967,
   0x27B70A85, 0x2E1B2138, 0x4D2C6DFC, 0x53380D13,
   0x650A7354, 0x766A0ABB, 0x81C2C92E, 0x92722C85,
   0xA2BFE8A1, 0xA81A664B, 0xC24B8B70, 0xC76C51A3,
   0xD192E819, 0xD6990624, 0xF40E3585, 0x106AA070,
   0x19A4C116, 0x1E376C08, 0x2748774C, 0x34B0BCB5,
   0x391C0CB3, 0x4ED8AA4A, 0x5B9CCA4F, 0x682E6FF3,
   0x748F82EE, 0x78A5636F, 0x84C87814, 0x8CC70208,
   0x90BEFFFA, 0xA4506CEB, 0xBEF9A3F7, 0xC67178F2]

/-- SHA-256 initial hash value. -/
def shaH0 : List Nat :=
  [0x6A09E667, 0xBB67AE85, 0x3C6EF372, 0xA54FF53A,
   0x510E527F, 0x9B05688C, 0x1F83D9AB, 0x5BE0CD19]

/-- Eight big-endian bytes of a natural number (the SHA-256 length
field). -/
def beBytes8 (n : Nat) : Bytes :=
  [n >>> 56, n >>> 48, n >>> 40, n >>> 32,
   n >>> 24, n >>> 16, n >>> 8, n].map (· % 256)

/-- SHA-256 padding: append 0x80, zeros to 56 mod 64, then the 64-bit
big-endian bit length. -/
def sha256pad (msg : Bytes) : Bytes :=
  let r := (msg.length + 1) % 64
  let zeros := (120 - r) % 64
  msg ++ [128] ++ List.replicate zeros 0 ++ beBytes8 (8 * msg.length)

/-- Big-endian 32-bit words of a byte list. -/
def toWordsBE : Bytes → List Nat
  | a :: b :: c :: d :: rest =>
    (((a * 256 + b) * 256 + c) * 256 + d) :: toWordsBE rest
  | _ => []

/-- Four big-endian bytes of a 32-bit word. -/
def wordBytesBE (w : Nat) : Bytes :=
  [w >>> 24 % 256, w >>> 16 % 256, w >>> 8 % 256, w % 256]

/-- SHA-256 sigma-0 message-schedule function. -/
def ssig0 (x : Nat) : Nat := rotr32 7 x ^^^ rotr32 18 x ^^^ (x >>> 3)

/-- SHA-256 sigma-1 message-schedule function. -/
def ssig1 (x : Nat) : Nat := rotr32 17 x ^^^ rotr32 19 x ^^^ (x >>> 10)

/-- SHA-256 big-Sigma-0 compression function. -/
def bsig0 (x : Nat) : Nat := rotr32 2 x ^^^ rotr32 13 x ^^^ rotr32 22 x

/-- SHA-256 big-Sigma-1 compression function. -/
def bsig1 (x : Nat) : Nat := rotr32 6 x ^^^ rotr32 11 x ^^^ rotr32 25 x

/-- Extend sixteen schedule words to sixty-four. -/
def schedule (ws : List Nat) : List Nat :=
  (List.range 48).foldl
    (fun w _ =>
      let t := w.length
      w ++ [(ssig1 (w.getD (t - 2) 0) + w.getD (t - 7) 0 +
             ssig0 (w.getD (t - 15) 0) + w.getD (t - 16) 0) % M32])
    ws

/-- One SHA-256 round on the eight working variables. -/
def shaRound (hv : List Nat) (k w : Nat) : List Nat :=
  match hv with
  | [a, b, c, d, e, f, g, h] =>
    let ch := (e &&& f) ^^^ ((0xffffffff ^^^ e) &&& g)
    let maj := ((a &&& b) ^^^ (a &&& c)) ^^^ (b &&& c)
    let t1 := (h + bsig1 e + ch + k + w) % M32
    let t2 := (bsig0 a + maj) % M32
    [(t1 + t2) % M32, a, b, c, (d + t1) % M32, e, f, g]
  | _ => hv

/-- SHA-256 compression of one 64-byte block. -/
def compress (hv : List Nat) (block : Bytes) : List Nat :=
  let w := schedule (toWordsBE block)
  let res := (List.range 64).foldl
    (fun s i => shaRound s (shaK.getD i 0) (w.getD i 0)) hv
  List.zipWith (fun x y => (x + y) % M32) hv res

/-- SHA-256 of a byte list (`hashlib.sha256(...).digest()`). -/
def sha256 (msg : Bytes) : Bytes :=
  let padded := sha256pad msg
  let blocks := (List.range (padded.length / 64)).map
    (fun i => (padded.drop (i * 64)).take 64)
  ((blocks.foldl compress shaH0).map wordBytesBE).flatten

/-- HMAC-SHA256 (`hmac.new(key, msg, hashlib.sha256).digest()`). -/
def hmacSha256 (key msg : Bytes) : Bytes :=
  let k0 := if 64 < key.length then sha256 key else key
  let kp := k0 ++ List.replicate (64 - k0.length) 0
  let ipad := kp.map (fun b => b ^^^ 0x36)
  let opad := kp.map (fun b => b ^^^ 0x5c)
  sha256 (opad ++ sha256 (ipad ++ msg))

/-- The base64 alphabet. -/
def b64Alphabet : List Char :=
  "ABCDEFGHIJKLMNOPQRSTUVWXYZabcdefghijklmnopqrstuvwxyz0123456789+/".data

/-- Base64 encoding of a byte list, as characters. -/
def b64EncodeChars : Bytes → List Char
  | a :: b :: c :: rest =>
    let n := a * 65536 + b * 256 + c
    b64Alphabet.getD (n / 262144) 'A' :: b64Alphabet.getD (n / 4096 % 64) 'A' ::
    b64Alphabet.getD (n / 64 % 64) 'A' :: b64Alphabet.getD (n % 64) 'A' ::
    b64EncodeChars rest
  | [a, b] =>
    let n := a * 65536 + b * 256
    [b64Alphabet.getD (n / 262144) 'A', b64Alphabet.getD (n / 4096 % 64) 'A',
     b64Alphabet.getD (n / 64 % 64) 'A', '=']
  | [a] =>
    let n := a * 65536
    [b64Alphabet.getD (n / 262144) 'A', b64Alphabet.getD (n / 4096 % 64) 'A',
     '=', '=']
  | [] => []

/-- `base64.b64encode(...).decode('utf-8')`. -/
def b64encode (bs : Bytes) : String := String.mk (b64EncodeChars bs)

/-- Index of a character in the base64 alphabet. -/
def b64Index (c : Char) : Option Nat :=
  let i := b64Alphabet.indexOf c
  if i < 64 then some i else none

/-- Base64 decoding (strict).  Python's default `b64decode` first
discards characters outside the alphabet; every input decoded in this
development is a well-formed output of `b64encode`, on which the strict
and lenient decoders agree.  `none` models `binascii.Error`. -/
def b64DecodeChars : List Char → Option Bytes
  | [] => some []
  | c1 :: c2 :: c3 :: c4 :: rest =>
    match b64Index c1, b64Index c2 with
    | some i1, some i2 =>
      if c3 = '=' then
        if c4 = '=' && rest.isEmpty then some [i1 * 4 + i2 / 16]
        else none
      else
        match b64Index c3 with
        | some i3 =>
          if c4 = '=' then
            if rest.isEmpty then
              some [i1 * 4 + i2 / 16, i2 % 16 * 16 + i3 / 4]
            else none
          else
            match b64Index c4 with
            | some i4 =>
              (b64DecodeChars rest).map (fun bs =>
                (i1 * 4 + i2 / 16) :: (i2 % 16 * 16 + i3 / 4) ::
                (i3 % 4 * 64 + i4) :: bs)
            | none => none
        | none => none
    | _, _ => none
  | _ => none

/-- `base64.b64decode` on a string. -/
def b64decode (s : String) : Option Bytes := b64DecodeChars s.data

/-- UTF-8 encoding of one character. -/
def utf8EncodeChar (c : Char) : Bytes :=
  let n := c.toNat
  if n < 128 then [n]
  else if n < 2048 then [192 + n / 64, 128 + n % 64]
  else if n < 65536 then [224 + n / 4096, 128 + n / 64 % 64, 128 + n % 64]
  else [240 + n / 262144, 128 + n / 4096 % 64, 128 + n / 64 % 64,
        128 + n % 64]

/-- Python `str.encode('utf-8')`. -/
def utf8Encode (s : String) : Bytes := (s.data.map utf8EncodeChar).flatten

/-- Whether a byte is a UTF-8 continuation byte. -/
def utf8Cont (b : Nat) : Bool := 128 ≤ b && b < 192

/-- Strict UTF-8 decoding (rejecting overlong forms, surrogates and
out-of-range code points); `none` models `UnicodeDecodeError` from
Python `bytes.decode('utf-8')`. -/
def utf8DecodeChars : Bytes → Option (List Char)
  | [] => some []
  | b :: rest =>
    if b < 128 then (utf8DecodeChars rest).map (fun cs => Char.ofNat b :: cs)
    else if b < 194 then none
    else if b < 224 then
      match rest with
      | b2 :: rest2 =>
        if utf8Cont b2 then
          (utf8DecodeChars rest2).map
            (fun cs => Char.ofNat ((b - 192) * 64 + (b2 - 128)) :: cs)
        else none
      | _ => none
    else if b < 240 then
      match rest with
      | b2 :: b3 :: rest2 =>
        if utf8Cont b2 && utf8Cont b3 then
          let n := (b - 224) * 4096 + (b2 - 128) * 64 + (b3 - 128)
          if 2048 ≤ n && !(55296 ≤ n && n < 57344) then
            (utf8DecodeChars rest2).map (fun cs => Char.ofNat n :: cs)
          else none
        else none
      | _ => none
    else if b < 245 then
      match rest with
      | b2 :: b3 :: b4 :: rest2 =>
        if utf8Cont b2 && utf8Cont b3 && utf8Cont b4 then
          let n := (b - 240) * 262144 + (b2 - 128) * 4096 +
            (b3 - 128) * 64 + (b4 - 128)
          if 65536 ≤ n && n < 1114112 then
            (utf8DecodeChars rest2).map (fun cs => Char.ofNat n :: cs)
          else none
        else none
      | _ => none
    else none

/-- Python `bytes.decode('utf-8')`. -/
def utf8Decode (bs : Bytes) : Option String :=
  (utf8DecodeChars bs).map String.mk

/-- Decidable equality of `Except` results, used to evaluate the
fallible crypto operations on concrete inputs. -/
instance {ε α : Type} [DecidableEq ε] [DecidableEq α] :
    DecidableEq (Except ε α) := fun x y =>
  match x, y with
  | .ok a, .ok b =>
    if h : a = b then isTrue (by rw [h])
    else isFalse (by intro hh; cases hh; exact h rfl)
  | .error a, .error b =>
    if h : a = b then isTrue (by rw [h])
    else isFalse (by intro hh; cases hh; exact h rfl)
  | .ok _, .error _ => isFalse (by intro hh; cases hh)
  | .error _, .ok _ => isFalse (by intro hh; cases hh)

/-- The Python exception kinds that `crypto.py` raises or catches. -/
inductive PyErr where
  | jsonError
  | keyError
  | binasciiError
  | valueError
  | unicodeError
deriving DecidableEq

/-- Iterated `seed = sha256(seed); keystream.extend(seed)`. -/
def shaChain (seed : Bytes) : Nat → List Bytes
  | 0 => []
  | k + 1 =>
    let s := sha256 seed
    s :: shaChain s k

/-- The keystream generated from `key + nonce`, long enough to cover
`n` bytes (`while len(keystream) < n`). -/
def keystream (seed : Bytes) (n : Nat) : Bytes :=
  (shaChain seed ((n + 31) / 32)).flatten

/-- The per-index XOR loop of the fallback cipher; `zipWith` stops at
the message length exactly as `for i in range(len(message))` does. -/
def xorBytes (a b : Bytes) : Bytes := List.zipWith (fun x y => x ^^^ y) a b

/-- `XChaCha20Poly1305.encrypt` in the in-repository fallback branch
(`NACL_AVAILABLE = False`): XOR with the sha256-chain keystream, then
an HMAC-SHA256 tag over nonce plus ciphertext; the result is
`nonce || tag || ciphertext`.  The 24-byte nonce (`os.urandom(24)`) is
an explicit argument. -/
def xchachaEncrypt (message key nonce24 : Bytes) : Bytes :=
  let ct := xorBytes message (keystream (key ++ nonce24) message.length)
  let tag := hmacSha256 key (nonce24 ++ ct)
  nonce24 ++ tag ++ ct

/-- `XChaCha20Poly1305.decrypt` in the fallback branch: split
`nonce || tag || ciphertext`, verify the HMAC tag, and XOR back;
`none` models the `return None` on tag mismatch. -/
def xchachaDecrypt (blob key : Bytes) : Option Bytes :=
  let nonce := blob.take 24
  let tag := (blob.drop 24).take 32
  let ct := blob.drop 56
  let expected := hmacSha256 key (nonce ++ ct)
  if tag = expected then
    some (xorBytes ct (keystream (key ++ nonce) ct.length))
  else none

/-- `CryptoFallback.generate_keypair` in the in-repository branch
(`NACL_AVAILABLE = False`): the private key is `secrets.token_bytes(32)`
(an explicit argument here), the public key is its SHA-256; both are
returned base64-encoded as `(public, private)`. -/
def generate_keypair (privRandom : Bytes) : String × String :=
  (b64encode (sha256 privRandom), b64encode privRandom)

/-- `CrystalsKyber.encapsulate` in the fallback branch
(`KYBER_AVAILABLE = False`): the shared secret is `os.urandom(32)` (an
explicit argument), the "ciphertext" is the HMAC of the secret keyed by
the decoded public key.  `none` models `b64decode` raising. -/
def kyberEncapsulate (public_key_b64 : String) (sharedSecret : Bytes) :
    Option (Bytes × Bytes) :=
  (b64decode public_key_b64).map
    (fun pub => (hmacSha256 pub sharedSecret, sharedSecret))

/-- `CrystalsKyber.decapsulate` in the fallback branch: the source
cannot recover the encapsulated secret and returns
`sha256(ciphertext + b64decode(private_key))` instead. -/
def kyberDecapsulate (ciphertext : Bytes) (private_key_b64 : String) :
    Option Bytes :=
  (b64decode private_key_b64).map (fun priv => sha256 (ciphertext ++ priv))

/-- A parsed JSON envelope: the textual container is a flat object with
string fields, modelled by its key/value list (`json.dumps`/`json.loads`
round-trip such objects); `Option Envelope` inputs use `none` for bytes
on which `json.loads` raises. -/
abbrev Envelope := List (String × String)

/-- Python `dict[k]` on a parsed envelope (`none` models `KeyError`). -/
def envGet (env : Envelope) (k : String) : Option String :=
  (env.find? (fun p => p.1 == k)).map (fun p => p.2)

/-- `CryptoFallback.encrypt` in the in-repository branch
(`NACL_AVAILABLE = False`): XOR the message with the keystream seeded by
the first 32 decoded public-key bytes and a fresh 16-byte nonce, and
return the `nonce`/`ciphertext` JSON object.  No authentication tag is
produced. -/
def cryptoFallbackEncrypt (message : String) (public_key_b64 : String)
    (nonce16 : Bytes) : Except PyErr Envelope :=
  match b64decode public_key_b64 with
  | none => .error PyErr.binasciiError
  | some pk =>
    let key := pk.take 32
    let mb := utf8Encode message
    let ct := xorBytes mb (keystream (key ++ nonce16) mb.length)
    .ok [("nonce", b64encode nonce16), ("ciphertext", b64encode ct)]

/-- `CryptoFallback.decrypt` in the in-repository branch
(`NACL_AVAILABLE = False`): read `nonce` and `ciphertext`, XOR with the
keystream seeded by the first 32 decoded private-key bytes, and decode
the result as UTF-8.  No authentication of any kind is performed. -/
def cryptoFallbackDecrypt (enc : Option Envelope)
    (private_key_b64 : String) : Except PyErr String :=
  match enc with
  | none => .error PyErr.jsonError
  | some env =>
    match envGet env "nonce" with
    | none => .error PyErr.keyError
    | some nonce_b64 =>
      match envGet env "ciphertext" with
      | none => .error PyErr.keyError
      | some ct_b64 =>
        match b64decode nonce_b64, b64decode ct_b64,
          b64decode private_key_b64 with
        | some nonce, some ct, some priv =>
          let key := priv.take 32
          let pt := xorBytes ct (keystream (key ++ nonce) ct.length)
          match utf8Decode pt with
          | some s => .ok s
          | none => .error PyErr.unicodeError
        | _, _, _ => .error PyErr.binasciiError

/-- `encrypt_message`: Kyber-fallback encapsulation, then the fallback
AEAD, packed into the `kyber_ciphertext`/`encrypted_message` JSON
envelope; any exception in that body falls back to
`CryptoFallback.encrypt`.  The KEM secret (`os.urandom(32)`), AEAD
nonce (`os.urandom(24)`) and fallback nonce (`os.urandom(16)`) are
explicit arguments. -/
def encrypt_message (message : String) (recipient_public_key : String)
    (kemSecret nonce24 nonce16 : Bytes) : Except PyErr Envelope :=
  match kyberEncapsulate recipient_public_key kemSecret with
  | some r =>
    let message_bytes := utf8Encode message
    let encrypted_message := xchachaEncrypt message_bytes r.2 nonce24
    .ok [("kyber_ciphertext", b64encode r.1),
         ("encrypted_message", b64encode encrypted_message)]
  | none => cryptoFallbackEncrypt message recipient_public_key nonce16

/-- The `try` body of `decrypt_message`: parse the envelope, decode the
two fields, decapsulate, AEAD-decrypt (a `None` result raises
`ValueError`), and decode the plaintext as UTF-8. -/
def decryptBody (enc : Option Envelope) (private_key : String) :
    Except PyErr String :=
  match enc with
  | none => .error PyErr.jsonError
  | some env =>
    match envGet env "kyber_ciphertext" with
    | none => .error PyErr.keyError
    | some kct_b64 =>
      match envGet env "encrypted_message" with
      | none => .error PyErr.keyError
      | some em_b64 =>
        match b64decode kct_b64, b64decode em_b64 with
        | some kct, some em =>
          match kyberDecapsulate kct private_key with
          | none => .error PyErr.binasciiError
          | some shared_secret =>
            match xchachaDecrypt em shared_secret with
            | none => .error PyErr.valueError
            | some pt =>
              match utf8Decode pt with
              | some s => .ok s
              | none => .error PyErr.unicodeError
        | _, _ => .error PyErr.binasciiError

/-- `decrypt_message`: the `try` body with every exception caught and
redirected to `CryptoFallback.decrypt` on the same raw input. -/
def decrypt_message (enc : Option Envelope) (private_key : String) :
    Except PyErr String :=
  match decryptBody enc private_key with
  | .ok s => .ok s
  | .error _ => cryptoFallbackDecrypt enc private_key

/-- A concrete 32-byte private key (standing for
`secrets.token_bytes(32)`). -/
def c4priv : Bytes := List.range 32

/-- The base64 public key produced by `generate_keypair` for `c4priv`
(checked in `generate_keypair_c4`). -/
def c4pubB64 : String := "Yw3NKWbEM2aRElRIu7JbT/QSpJxzLbLIq8G4WBvXEN0="

/-- The base64 private key produced by `generate_keypair` for
`c4priv`. -/
def c4privB64 : String := "AAECAwQFBgcICQoLDA0ODxAREhMUFRYXGBkaGxwdHh8="

/-- A concrete KEM secret (standing for `os.urandom(32)`). -/
def c4secret : Bytes := (List.range 32).map (fun i => 7 * i % 256)

/-- A concrete AEAD nonce (standing for `os.urandom(24)`). -/
def c4nonce24 : Bytes := List.replicate 24 5

/-- A concrete fallback nonce (standing for `os.urandom(16)`). -/
def c4nonce16 : Bytes := List.replicate 16 3

/-- The base64 KEM ciphertext field of the envelope that
`encrypt_message "hello" c4pubB64 c4secret c4nonce24 c4nonce16`
produces (checked in the claim theorem). -/
def c4kctB64 : String := "5LbBIZykB7zgxas11Ct/cNTgOfHzjklTNmRTjNaYqu8="

/-- The base64 AEAD blob field of the same envelope. -/
def c4emB64 : String :=
  "BQUFBQUFBQUFBQUFBQUFBQUFBQUFBQUFuBhqaLrGNuWJT+J4oXaYHoBCXpT9i+3PaCZ7P3hnNO4xZe9UEQ=="

/-- The envelope produced by the concrete `encrypt_message` call. -/
def c4envDict : Envelope :=
  [("kyber_ciphertext", c4kctB64), ("encrypted_message", c4emB64)]

/-- The decoded KEM ciphertext bytes of `c4kctB64`. -/
def c4kct : Bytes :=
  [228, 182, 193, 33, 156, 164, 7, 188, 224, 197, 171, 53, 212, 43, 127,
   112, 212, 224, 57, 241, 243, 142, 73, 83, 54, 100, 83, 140, 214, 152,
   170, 239]

/-- The decoded AEAD blob bytes of `c4emB64`. -/
def c4em : Bytes :=
  [5, 5, 5, 5, 5, 5, 5, 5, 5, 5, 5, 5, 5, 5, 5, 5, 5, 5, 5, 5, 5, 5, 5,
   5, 184, 24, 106, 104, 186, 198, 54, 229, 137, 79, 226, 120, 161, 118,
   152, 30, 128, 66, 94, 148, 253, 139, 237, 207, 104, 38, 123, 63, 120,
   103, 52, 238, 49, 101, 239, 84, 17]

/-- What the fallback `decapsulate` actually returns for `c4kct` and
`c4privB64`: `sha256(c4kct ++ c4priv)`, which differs from the
encapsulated secret `c4secret`. -/
def c4badSecret : Bytes :=
  [61, 50, 98, 134, 115, 230, 151, 186, 132, 73, 20, 6, 122, 58, 216,
   180, 138, 221, 232, 164, 136, 234, 188, 172, 116, 252, 239, 132, 32,
   53, 60, 160]

/-- A ciphertext crafted so that the unauthenticated fallback XOR
decryption under `c4privB64`/`c4nonce16` yields the string "oops":
the UTF-8 bytes of "oops" XORed with the fallback keystream. -/
def c5ct : Bytes := [73, 198, 59, 196]

/-- A malformed envelope (it is not the specified
`kyber_ciphertext`/`encrypted_message` container): a JSON object with
`nonce` and `ciphertext` fields, which `decrypt_message` hands to the
unauthenticated `CryptoFallback.decrypt`. -/
def c5env : Envelope :=
  [("nonce", "AwMDAwMDAwMDAwMDAwMDAw=="), ("ciphertext", "ScY7xA==")]

end Crypto

section MeshTheorems

open Mesh

theorem setInsert_contains_self (l : List String) (x : String) :
    (setInsert l x).contains x = true := by
  unfold setInsert
  by_cases h : l.contains x = true
  · rw [if_pos h]
    exact h
  · rw [if_neg h]
    simp

theorem setInsert_contains_mono (l : List String) (x y : String)
    (h : l.contains x = true) : (setInsert l y).contains x = true := by
  unfold setInsert
  by_cases hy : l.contains y = true
  · rw [if_pos hy]
    exact h
  · rw [if_neg hy]
    have hmem : x ∈ l := by simpa using h
    simp [hmem]

theorem broadcastMessage_state (st : RelayState) (m : Message) :
    (broadcastMessage st m).1 =
      { st with processed_messages := setInsert st.processed_messages m.id } := by
  cases hb : st.batman_available <;> simp [broadcastMessage, hb]

theorem sendRoutingInfo_state (st : RelayState) (freshId : String) (now : ℚ) :
    (sendRoutingInfo st freshId now).1 =
      { st with processed_messages := setInsert st.processed_messages freshId } := by
  unfold sendRoutingInfo
  rw [broadcastMessage_state]

theorem sendDiscovery_state (st : RelayState) (freshId : String) (now : ℚ) :
    (sendDiscovery st freshId now).1 =
      { st with processed_messages := setInsert st.processed_messages freshId } := by
  unfold sendDiscovery
  rw [broadcastMessage_state]

theorem mem_sendToAllNodes_msg {st : RelayState} {m : Message} {s : Send}
    (h : s ∈ sendToAllNodes st m) : s.msg = m := by
  unfold sendToAllNodes at h
  rw [List.mem_filterMap] at h
  obtain ⟨p, -, hp⟩ := h
  by_cases c : (p.1 != st.node_id && p.2.is_active) = true
  · rw [if_pos c] at hp
    cases hp
    rfl
  · rw [if_neg c] at hp
    cases hp

theorem mem_broadcastMessage_msg {st : RelayState} {m : Message} {s : Send}
    (h : s ∈ (broadcastMessage st m).2) : s.msg = m := by
  unfold broadcastMessage at h
  by_cases hb : st.batman_available = true
  · simp only [hb, if_pos] at h
    simp only [List.mem_singleton] at h
    rw [h]
  · simp only [hb, if_neg, Bool.false_eq_true, not_false_eq_true] at h
    exact mem_sendToAllNodes_msg h

theorem mem_relayMessage {st : RelayState} {m : Message} {s : Send} :
    s ∈ relayMessage st m ↔
      0 < m.ttl ∧ ∃ p, p ∈ st.nodes ∧ p.1 ≠ st.node_id ∧
        p.1 ≠ m.sender_id ∧ p.2.is_active = true ∧
        s = ⟨p.2.address, p.2.port, p.2.public_key, m⟩ := by
  unfold relayMessage
  by_cases h : m.ttl ≤ 0
  · rw [if_pos h]
    simp [show ¬(0 < m.ttl) from not_lt.2 h]
  · rw [if_neg h]
    rw [List.mem_filterMap]
    constructor
    · rintro ⟨p, hp, hf⟩
      by_cases c : (p.1 != st.node_id && p.1 != m.sender_id && p.2.is_active) = true
      · rw [if_pos c] at hf
        cases hf
        simp only [Bool.and_eq_true, bne_iff_ne, ne_eq] at c
        exact ⟨not_le.1 h, p, hp, c.1.1, c.1.2, c.2, rfl⟩
      · rw [if_neg c] at hf
        cases hf
    · rintro ⟨-, p, hp, h1, h2, h3, rfl⟩
      refine ⟨p, hp, ?_⟩
      rw [if_pos (by simp [h1, h2, h3])]

theorem filterMap_ite_length {α β : Type} (c : α → Bool) (f : α → β) :
    ∀ l : List α,
      (l.filterMap (fun a => if c a then some (f a) else none)).length =
        (l.filter c).length
  | [] => rfl
  | a :: l => by
    by_cases h : c a = true
    · simp only [List.filterMap_cons, List.filter_cons, h, if_pos,
        List.length_cons]
      rw [filterMap_ite_length c f l]
    · simp only [List.filterMap_cons, List.filter_cons, h]
      simpa using filterMap_ite_length c f l

theorem mem_handleRouting_state {st : RelayState} {m : Message} {now : ℚ}
    {r : RelayState} (h : handleRouting st m now = some r) :
    r.processed_messages = st.processed_messages := by
  unfold handleRouting at h
  cases hcon : m.content
  case routing ns =>
    rw [hcon] at h
    injection h with h2
    rw [← h2]
  all_goals rw [hcon] at h
  all_goals exact Option.noConfusion h

theorem handleMessage_dup (st : RelayState) (m : Message) (addr : String)
    (now : ℚ) (freshId : String)
    (h : st.processed_messages.contains m.id = true) :
    handleMessage st m addr now freshId = (st, [], []) := by
  unfold handleMessage
  rw [if_pos h]

theorem sendRoutingInfo_sends {st : RelayState} {f : String} {now : ℚ}
    {s : Send} (h : s ∈ (sendRoutingInfo st f now).2) :
    s.msg.id = f ∧ s.msg.ttl = 2 := by
  simp only [sendRoutingInfo] at h
  rw [mem_broadcastMessage_msg h]
  exact ⟨rfl, rfl⟩

theorem handleDiscovery_spec {st : RelayState} {m : Message}
    {addr : String} {now : ℚ} {freshId : String}
    {r : RelayState × List Send}
    (h : handleDiscovery st m addr now freshId = some r) :
    (r.1.processed_messages = st.processed_messages ∨
     r.1.processed_messages = setInsert st.processed_messages freshId) ∧
    ∀ s ∈ r.2, s.msg.id = freshId ∧ s.msg.ttl = 2 := by
  simp only [handleDiscovery] at h
  cases hcon : m.content
  case discovery port pk =>
    simp only [hcon] at h
    by_cases hs : (m.sender_id != st.node_id) = true
    · rw [if_pos hs] at h
      injection h with h2
      subst h2
      constructor
      · right
        rw [sendRoutingInfo_state]
      · intro s hsnd
        exact sendRoutingInfo_sends hsnd
    · rw [if_neg hs] at h
      injection h with h2
      subst h2
      exact ⟨Or.inl rfl, by intro s hsnd; cases hsnd⟩
  all_goals simp only [hcon] at h
  all_goals exact Option.noConfusion h

theorem dispatchMessage_spec {st1 : RelayState} {m : Message}
    {addr : String} {now : ℚ} {freshId : String}
    {t : RelayState × List Message × List Send}
    (h : dispatchMessage st1 m addr now freshId = some t) :
    (t.1.processed_messages = st1.processed_messages ∨
     t.1.processed_messages = setInsert st1.processed_messages freshId) ∧
    (∀ s ∈ t.2.2, s.msg.id = freshId ∧ s.msg.ttl = 2) ∧
    ∀ d ∈ t.2.1, d = m := by
  unfold dispatchMessage at h
  by_cases h1 : (m.type == "discovery") = true
  · rw [if_pos h1] at h
    cases hd : handleDiscovery st1 m addr now freshId
    · rw [hd] at h
      exact Option.noConfusion h
    · rename_i r
      rw [hd] at h
      simp only [Option.map_some'] at h
      injection h with h2
      subst h2
      obtain ⟨hp, hsnd⟩ := handleDiscovery_spec hd
      exact ⟨hp, hsnd, by intro d hd2; cases hd2⟩
  · rw [if_neg h1] at h
    by_cases h2 : (m.type == "routing") = true
    · rw [if_pos h2] at h
      cases hr : handleRouting st1 m now
      · rw [hr] at h
        exact Option.noConfusion h
      · rename_i r
        rw [hr] at h
        simp only [Option.map_some'] at h
        injection h with h3
        subst h3
        refine ⟨Or.inl (mem_handleRouting_state hr), ?_, ?_⟩
        · intro s hsnd
          cases hsnd
        · intro d hd2
          cases hd2
    · rw [if_neg h2] at h
      by_cases h3 : (m.type == "text" || m.type == "voice") = true
      · rw [if_pos h3] at h
        injection h with h4
        subst h4
        refine ⟨Or.inl rfl, ?_, ?_⟩
        · intro s hsnd
          cases hsnd
        · intro d hd2
          unfold handleData at hd2
          by_cases hc : (m.recipient_id == st1.node_id ||
              m.recipient_id == "broadcast") = true
          · rw [if_pos hc] at hd2
            simpa using hd2
          · rw [if_neg hc] at hd2
            cases hd2
      · rw [if_neg h3] at h
        injection h with h4
        subst h4
        refine ⟨Or.inl rfl, ?_, ?_⟩
        · intro s hsnd
          cases hsnd
        · intro d hd2
          cases hd2

theorem dispatchMessage_data {st1 : RelayState} {m : Message}
    {addr : String} {now : ℚ} {freshId : String}
    (hty : m.type = "text" ∨ m.type = "voice") :
    dispatchMessage st1 m addr now freshId =
      some (st1, handleData st1 m, []) := by
  unfold dispatchMessage
  rcases hty with h | h <;>
    rw [if_neg (by rw [h]; decide), if_neg (by rw [h]; decide),
      if_pos (by rw [h]; decide)]

theorem handleMessage_eq_of_not_dup {st : RelayState} {m : Message}
    {addr : String} {now : ℚ} {freshId : String}
    (h : st.processed_messages.contains m.id = false) :
    handleMessage st m addr now freshId =
      (match dispatchMessage (markProcessed st m.id) m addr now freshId with
       | none => (markProcessed st m.id, [], [])
       | some (st2, dels, aux) =>
         if 0 < m.ttl then
           (st2, dels, aux ++ relayMessage st2 { m with ttl := m.ttl - 1 })
         else (st2, dels, aux)) := by
  unfold handleMessage
  rw [if_neg (by rw [h]; decide)]

theorem handleMessage_processed_mono {st : RelayState} {m : Message}
    {addr : String} {now : ℚ} {freshId x : String}
    (hx : st.processed_messages.contains x = true) :
    (handleMessage st m addr now freshId).1.processed_messages.contains x
      = true := by
  cases hdup : st.processed_messages.contains m.id
  · rw [handleMessage_eq_of_not_dup hdup]
    split
    · exact setInsert_contains_mono _ _ _ hx
    · rename_i st2 dels aux heq
      obtain ⟨hproc, -, -⟩ := dispatchMessage_spec heq
      have hst2 : st2.processed_messages.contains x = true := by
        rcases hproc with hp | hp <;> rw [show st2.processed_messages
            = _ from hp]
        · exact setInsert_contains_mono _ _ _ hx
        · exact setInsert_contains_mono _ _ _
            (setInsert_contains_mono _ _ _ hx)
      split
      · exact hst2
      · exact hst2
  · rw [handleMessage_dup st m addr now freshId hdup]
    exact hx

theorem handleMessage_processed_self {st : RelayState} {m : Message}
    {addr : String} {now : ℚ} {freshId : String}
    (h : st.processed_messages.contains m.id = false) :
    (handleMessage st m addr now freshId).1.processed_messages.contains m.id
      = true := by
  rw [handleMessage_eq_of_not_dup h]
  split
  · exact setInsert_contains_self _ _
  · rename_i st2 dels aux heq
    obtain ⟨hproc, -, -⟩ := dispatchMessage_spec heq
    have hst2 : st2.processed_messages.contains m.id = true := by
      rcases hproc with hp | hp <;> rw [show st2.processed_messages
          = _ from hp]
      · exact setInsert_contains_self _ _
      · exact setInsert_contains_mono _ _ _ (setInsert_contains_self _ _)
    split
    · exact hst2
    · exact hst2

theorem handleMessage_send_src {st : RelayState} {m : Message}
    {addr : String} {now : ℚ} {freshId : String} {s : Send}
    (hs : s ∈ (handleMessage st m addr now freshId).2.2) :
    s.msg.id = freshId ∨
      (0 < m.ttl - 1 ∧ s.msg = { m with ttl := m.ttl - 1 }) := by
  cases hdup : st.processed_messages.contains m.id
  · rw [handleMessage_eq_of_not_dup hdup] at hs
    split at hs
    · cases hs
    · rename_i st2 dels aux heq
      obtain ⟨-, haux, -⟩ := dispatchMessage_spec heq
      split at hs
      · rcases List.mem_append.1 hs with hmem | hmem
        · exact Or.inl (haux s hmem).1
        · obtain ⟨hpos, p, -, -, -, -, hp⟩ := (mem_relayMessage).1 hmem
          exact Or.inr ⟨hpos, by rw [hp]⟩
      · exact Or.inl (haux s hs).1
  · rw [handleMessage_dup st m addr now freshId hdup] at hs
    cases hs

theorem handleMessage_dels {st : RelayState} {m : Message}
    {addr : String} {now : ℚ} {freshId : String}
    (hdup : st.processed_messages.contains m.id = false)
    (hty : m.type = "text" ∨ m.type = "voice") :
    (handleMessage st m addr now freshId).2.1 =
      if (m.recipient_id == st.node_id ||
          m.recipient_id == "broadcast") = true then [m] else [] := by
  rw [handleMessage_eq_of_not_dup hdup]
  simp only [dispatchMessage_data hty]
  have hgoal : handleData (markProcessed st m.id) m =
      if (m.recipient_id == st.node_id ||
          m.recipient_id == "broadcast") = true then [m] else [] := by
    unfold handleData
    rfl
  split
  · exact hgoal
  · exact hgoal

theorem processStream_cons_none (st : RelayState) (d : Datagram)
    (ds : List Datagram) (hp : d.parsed = none) :
    processStream st (d :: ds) = processStream st ds := by
  obtain ⟨parsed, dnow, dfresh⟩ := d
  dsimp only at hp
  subst hp
  rfl

theorem processStream_cons_some (st : RelayState) (d : Datagram)
    (ds : List Datagram) (m : Message) (addr : String)
    (hp : d.parsed = some (m, addr)) :
    processStream st (d :: ds) =
      (if st.processed_messages.contains m.id = true then
        processStream (handleMessage st m addr d.now d.freshId).1 ds
      else
        ((processStream (handleMessage st m addr d.now d.freshId).1 ds).1,
         m.id ::
           (processStream (handleMessage st m addr d.now d.freshId).1 ds).2)) := by
  obtain ⟨parsed, dnow, dfresh⟩ := d
  dsimp only at hp ⊢
  subst hp
  rfl

theorem processStream_count_zero (st : RelayState) (ds : List Datagram)
    (x : String) (hx : st.processed_messages.contains x = true) :
    (processStream st ds).2.count x = 0 := by
  induction ds generalizing st with
  | nil => rfl
  | cons d ds ih =>
    cases hp : d.parsed
    · rw [processStream_cons_none st d ds hp]
      exact ih st hx
    · rename_i pa
      obtain ⟨m, addr⟩ := pa
      rw [processStream_cons_some st d ds m addr hp]
      by_cases hdup : st.processed_messages.contains m.id = true
      · rw [if_pos hdup]
        exact ih _ (handleMessage_processed_mono hx)
      · rw [if_neg hdup]
        have hne : (m.id == x) = false := by
          cases he : m.id == x
          · rfl
          · rw [← show m.id = x from by simpa using he] at hx
            exact absurd hx hdup
        rw [List.count_cons, if_neg (by rw [hne]; decide)]
        simpa using ih _ (handleMessage_processed_mono hx)

theorem processStream_count_le_one (st : RelayState) (ds : List Datagram)
    (x : String) : (processStream st ds).2.count x ≤ 1 := by
  induction ds generalizing st with
  | nil => simp [processStream]
  | cons d ds ih =>
    cases hp : d.parsed
    · rw [processStream_cons_none st d ds hp]
      exact ih st
    · rename_i pa
      obtain ⟨m, addr⟩ := pa
      rw [processStream_cons_some st d ds m addr hp]
      by_cases hdup : st.processed_messages.contains m.id = true
      · rw [if_pos hdup]
        exact ih _
      · rw [if_neg hdup]
        rw [List.count_cons]
        by_cases hx : (m.id == x) = true
        · have hxid : m.id = x := by simpa using hx
          have hz : (processStream
              (handleMessage st m addr d.now d.freshId).1 ds).2.count x
              = 0 := by
            refine processStream_count_zero _ _ _ ?_
            rw [← hxid]
            rcases Bool.eq_false_or_eq_true
                (st.processed_messages.contains m.id) with ht | hf
            · exact absurd ht hdup
            · exact handleMessage_processed_self hf
          rw [hz, if_pos hx]
        · rw [if_neg hx]
          simpa using ih _

/-- Claim C2: the second and every later arrival of a message whose id
is already in the processed set is discarded before dispatch, leaving
the entire relay state (peer table included) unchanged, delivering
nothing and sending nothing; consequently over any stream of received
datagrams each message id is dispatched at most once. -/
theorem C2_dedup_dispatch_once :
    (∀ (st : RelayState) (m : Message) (addr : String) (now : ℚ)
        (freshId : String), st.processed_messages.contains m.id = true →
        handleMessage st m addr now freshId = (st, [], [])) ∧
    ∀ (st : RelayState) (ds : List Datagram) (x : String),
      (processStream st ds).2.count x ≤ 1 :=
  ⟨handleMessage_dup, processStream_count_le_one⟩

/-- Concrete instantiation of `C2_dedup_dispatch_once`: a node that has
already processed id "a" discards a second copy without state change,
deliveries or sends. -/
theorem C2_dedup_dispatch_once_witness :
    (({ node_id := "n", public_key := "pk", port := 8000,
        batman_available := false, nodes := [],
        processed_messages := ["a"] } : RelayState).processed_messages.contains
          "a" = true) ∧
    handleMessage
      { node_id := "n", public_key := "pk", port := 8000,
        batman_available := false, nodes := [],
        processed_messages := ["a"] }
      { id := "a", sender_id := "s", recipient_id := "broadcast",
        type := "text", content := Content.raw "hi", timestamp := 0,
        ttl := 3 }
      "10.0.0.1" 0 "f" =
      ({ node_id := "n", public_key := "pk", port := 8000,
         batman_available := false, nodes := [],
         processed_messages := ["a"] }, [], []) :=
  ⟨by decide,
   C2_dedup_dispatch_once.1 _ _ "10.0.0.1" 0 "f" (by decide)⟩

/-- Claim C9: `_relay_message` sends one encrypted copy to exactly the
table entries that are active and differ from both this node and the
message's sender, encrypting under that entry's own public key, and
sends nothing when the (already decremented) ttl is not positive. -/
theorem C9_relay_fanout (st : RelayState) (m : Message) :
    (∀ s : Send, s ∈ relayMessage st m ↔
      (0 < m.ttl ∧ ∃ p, p ∈ st.nodes ∧ p.1 ≠ st.node_id ∧
        p.1 ≠ m.sender_id ∧ p.2.is_active = true ∧
        s = ⟨p.2.address, p.2.port, p.2.public_key, m⟩)) ∧
    (relayMessage st m).length =
      (if 0 < m.ttl then
        (st.nodes.filter (fun p =>
          p.1 != st.node_id && p.1 != m.sender_id && p.2.is_active)).length
      else 0) := by
  constructor
  · intro s
    exact mem_relayMessage
  · unfold relayMessage
    by_cases h : m.ttl ≤ 0
    · rw [if_pos h, if_neg (not_lt.2 h)]
      rfl
    · rw [if_neg h, if_pos (not_le.1 h)]
      exact filterMap_ite_length _ _ _

theorem echoSuppressed_of_contains {freshId : String}
    {r : RelayState × List Send}
    (h : r.1.processed_messages.contains freshId = true) :
    echoSuppressed freshId r :=
  ⟨h, fun _ _ _ _ hm => handleMessage_dup _ _ _ _ _ (by rw [hm]; exact h)⟩

/-- Claim C10: every broadcast origination (discovery, routing,
broadcast text, broadcast voice) records the fresh message id in
`processed_messages`, so a copy of the node's own message flooded back
to it is discarded by the dedup check: no dispatch, no delivery, no
forwarding, no state change. -/
theorem C10_origin_echo (st : RelayState) (freshId : String) (now : ℚ)
    (recipient_id text_content voice_data : String) :
    echoSuppressed freshId (sendDiscovery st freshId now) ∧
    echoSuppressed freshId (sendRoutingInfo st freshId now) ∧
    (recipient_id = "broadcast" → echoSuppressed freshId
      (sendTextMessage st freshId now recipient_id text_content)) ∧
    (recipient_id = "broadcast" → echoSuppressed freshId
      (sendVoiceData st freshId now recipient_id voice_data)) := by
  refine ⟨?_, ?_, ?_, ?_⟩
  · refine echoSuppressed_of_contains ?_
    rw [sendDiscovery_state]
    exact setInsert_contains_self _ _
  · refine echoSuppressed_of_contains ?_
    rw [sendRoutingInfo_state]
    exact setInsert_contains_self _ _
  · intro hb
    subst hb
    refine echoSuppressed_of_contains ?_
    unfold sendTextMessage
    rw [if_pos (by decide), broadcastMessage_state]
    exact setInsert_contains_self _ _
  · intro hb
    subst hb
    refine echoSuppressed_of_contains ?_
    unfold sendVoiceData
    rw [if_pos (by decide), broadcastMessage_state]
    exact setInsert_contains_self _ _

/-- Concrete instantiation of `C10_origin_echo`: a broadcast text
origination marks its fresh id processed, and the flooded-back copy is
a no-op. -/
theorem C10_origin_echo_witness :
    ("x1" : String) = "x1" ∧
    echoSuppressed "f1"
      (sendTextMessage
        { node_id := "n", public_key := "pk", port := 8000,
          batman_available := false, nodes := [],
          processed_messages := [] }
        "f1" 0 "broadcast" "hello") :=
  ⟨rfl,
   (C10_origin_echo
      { node_id := "n", public_key := "pk", port := 8000,
        batman_available := false, nodes := [],
        processed_messages := [] }
      "f1" 0 "broadcast" "hello" "v").2.2.1 rfl⟩

/-- Claim C1: every relayed copy of a received message carries
`ttl = incoming ttl - 1`, which is strictly positive (never negative);
a message arriving with `ttl ≤ 1` (in particular 0 or 1) is never
forwarded; and a fresh text/voice message is delivered locally exactly
when addressed to this node or to "broadcast", regardless of its
ttl. -/
theorem C1_ttl_decrement (st : RelayState) (m : Message) (addr : String)
    (now : ℚ) (freshId : String) (hfresh : freshId ≠ m.id) :
    (∀ s ∈ (handleMessage st m addr now freshId).2.2, s.msg.id = m.id →
        s.msg.ttl = m.ttl - 1 ∧ 0 < s.msg.ttl) ∧
    (m.ttl ≤ 1 → ∀ s ∈ (handleMessage st m addr now freshId).2.2,
        s.msg.id ≠ m.id) ∧
    ((m.type = "text" ∨ m.type = "voice") →
      st.processed_messages.contains m.id = false →
      ((m.recipient_id = st.node_id ∨ m.recipient_id = "broadcast") ↔
        m ∈ (handleMessage st m addr now freshId).2.1)) := by
  refine ⟨?_, ?_, ?_⟩
  · intro s hs hid
    rcases handleMessage_send_src hs with h | ⟨hpos, hmsg⟩
    · exact absurd (h.symm.trans hid) hfresh
    · rw [hmsg]
      exact ⟨rfl, hpos⟩
  · intro hle s hs hid
    rcases handleMessage_send_src hs with h | ⟨hpos, -⟩
    · exact hfresh (h.symm.trans hid)
    · have : (0 : Int) < m.ttl - 1 := hpos
      omega
  · intro hty hdup
    rw [handleMessage_dels hdup hty]
    by_cases hc : (m.recipient_id == st.node_id ||
        m.recipient_id == "broadcast") = true
    · rw [if_pos hc]
      simp only [Bool.or_eq_true, beq_iff_eq] at hc
      exact iff_of_true hc (List.mem_singleton.2 rfl)
    · rw [if_neg hc]
      simp only [Bool.or_eq_true, beq_iff_eq] at hc
      push_neg at hc
      constructor
      · intro hrec
        rcases hrec with h | h
        · exact absurd h hc.1
        · exact absurd h hc.2
      · intro hmem
        cases hmem

/-- Concrete instantiation of `C1_ttl_decrement`: a fresh broadcast
text message with ttl 1 arriving at a node with one active peer is
delivered locally and the second conjunct applies (no relayed copy of
its id). -/
theorem C1_ttl_decrement_witness :
    ("f2" : String) ≠ "m1" ∧ ((1 : Int) ≤ 1) ∧
    (∀ s ∈ (handleMessage { node_id := "n", public_key := "pk", port := 8000, batman_available := false, nodes := [("p", { id := "p", address := "10.0.0.2", port := 8000, last_seen := 0, public_key := "ppk", is_active := true })], processed_messages := [] } { id := "m1", sender_id := "s", recipient_id := "broadcast", type := "text", content := Content.raw "hi", timestamp := 0, ttl := 1 } "10.0.0.3" 0 "f2").2.2, s.msg.id ≠ "m1") :=
  ⟨by decide, by decide,
   (C1_ttl_decrement { node_id := "n", public_key := "pk", port := 8000, batman_available := false, nodes := [("p", { id := "p", address := "10.0.0.2", port := 8000, last_seen := 0, public_key := "ppk", is_active := true })], processed_messages := [] } { id := "m1", sender_id := "s", recipient_id := "broadcast", type := "text", content := Content.raw "hi", timestamp := 0, ttl := 1 } "10.0.0.3" 0 "f2" (by decide)).2.1 (by decide)⟩

/-- Counterexample to claim C8 as stated: at a maintenance pass with
`now - last_seen` exactly 60 (so at least 60 seconds of silence, as the
claim requires), the marking step leaves the peer active, because the
source tests the strict inequality `current_time - node.last_seen > 60`. -/
theorem C8_staleness_counterexample :
    maintMark 60 [("b", peerB)] = [("b", peerB)] ∧
    (60 : ℚ) - peerB.last_seen ≥ 60 ∧ peerB.is_active = true := by
  have h : ¬ ((60 : ℚ) - peerB.last_seen > 60) := by
    norm_num [peerB]
  refine ⟨?_, by norm_num [peerB], rfl⟩
  unfold maintMark
  simp [h]

/-- Claim C8 as amended: a maintenance pass removes no entry, preserves
ids and `last_seen`, and leaves a peer active exactly when it was
active and its silence is not strictly greater than 60 seconds (so
`is_active` becomes false iff `now - last_seen > 60`, strictly). -/
theorem C8_staleness_marking (now : ℚ) (nodes : List (String × Node))
    (k : Nat) (hk : k < nodes.length) :
    (maintMark now nodes).length = nodes.length ∧
    ((maintMark now nodes).getD k dfltEntry).1 = (nodes.getD k dfltEntry).1 ∧
    ((maintMark now nodes).getD k dfltEntry).2.last_seen =
      (nodes.getD k dfltEntry).2.last_seen ∧
    (((maintMark now nodes).getD k dfltEntry).2.is_active = true ↔
      ((nodes.getD k dfltEntry).2.is_active = true ∧
        ¬(now - (nodes.getD k dfltEntry).2.last_seen > 60))) := by
  have hlen : (maintMark now nodes).length = nodes.length :=
    List.length_map _ _
  have hget : (maintMark now nodes).getD k dfltEntry =
      (if now - (nodes.getD k dfltEntry).2.last_seen > 60 then
        ((nodes.getD k dfltEntry).1,
         { (nodes.getD k dfltEntry).2 with is_active := false })
      else nodes.getD k dfltEntry) := by
    unfold maintMark
    rw [List.getD_eq_getElem?_getD, List.getElem?_map,
      List.getElem?_eq_getElem hk, List.getD_eq_getElem?_getD,
      List.getElem?_eq_getElem hk]
    rfl
  refine ⟨hlen, ?_, ?_, ?_⟩ <;> rw [hget] <;>
    by_cases h60 : now - (nodes.getD k dfltEntry).2.last_seen > 60
  · rw [if_pos h60]
  · rw [if_neg h60]
  · rw [if_pos h60]
  · rw [if_neg h60]
  · rw [if_pos h60]
    constructor
    · intro hfalse
      exact Bool.noConfusion hfalse
    · rintro ⟨-, hn⟩
      exact absurd h60 hn
  · rw [if_neg h60]
    exact ⟨fun ha => ⟨ha, h60⟩, fun ha => ha.1⟩

/-- Concrete instantiation of `C8_staleness_marking` at a one-entry
table. -/
theorem C8_staleness_marking_witness :
    0 < ([("b", peerB)] : List (String × Node)).length ∧
    ((maintMark 100 [("b", peerB)]).getD 0 dfltEntry).1 =
      (([("b", peerB)] : List (String × Node)).getD 0 dfltEntry).1 :=
  ⟨by decide, (C8_staleness_marking 100 [("b", peerB)] 0 (by decide)).2.1⟩

/-- Claim C3 evaluated on the code: the dedup garbage collection keeps
or drops ids by comparing the final hyphen segment of the id with the
decimal rendering of `now - 300` as strings.  At time 10^9 the id
`oldMsgId` (which carries no timestamp at all and may have been
processed arbitrarily long ago) is retained, while `freshMsgId` is
dropped even though it was just created: retention is independent of
creation time, and ids whose last segment starts with a hex letter
accumulate forever. -/
theorem C3_gc_evaluation :
    gcProcessed 1000000000 [oldMsgId, freshMsgId] = [oldMsgId] := by
  unfold gcProcessed
  rw [show (1000000000 : ℚ) - 300 = 999999700 from by norm_num]
  decide

end MeshTheorems

section VoiceTheorems

open Voice

theorem vadUpdate_threshold (st : VadState) (p : ℚ) :
    (vadUpdate st p).vad_threshold = st.vad_threshold := by
  unfold vadUpdate
  by_cases h : st.vad_threshold ≤ p
  · rw [if_pos h]
  · rw [if_neg h]

theorem vadUpdate_voiced (st : VadState) (p : ℚ)
    (hv : st.vad_threshold ≤ p) :
    (vadUpdate st p).speech_frames = st.speech_frames + 1 ∧
    (vadUpdate st p).silence_frames = 0 ∧
    (vadUpdate st p).is_speech =
      (if MIN_SPEECH_FRAMES ≤ st.speech_frames + 1 then true
       else st.is_speech) := by
  unfold vadUpdate
  rw [if_pos hv]
  exact ⟨rfl, rfl, rfl⟩

theorem vadUpdate_unvoiced (st : VadState) (p : ℚ)
    (hu : ¬ st.vad_threshold ≤ p) :
    (vadUpdate st p).speech_frames = 0 ∧
    (vadUpdate st p).silence_frames = st.silence_frames + 1 ∧
    (vadUpdate st p).is_speech =
      (if MIN_SILENCE_FRAMES ≤ st.silence_frames + 1 then false
       else st.is_speech) := by
  unfold vadUpdate
  rw [if_neg hu]
  exact ⟨rfl, rfl, rfl⟩

theorem scanStep_best_le (th : ℚ) :
    ∀ (fs : List ℚ) (c b : Nat), b ≤ (fs.foldl (scanStep th) (c, b)).2
  | [], _, _ => le_refl _
  | p :: fs, c, b => by
    rw [List.foldl_cons]
    unfold scanStep
    by_cases h : th ≤ p
    · rw [if_pos h]
      exact le_trans (le_max_left b (c + 1)) (scanStep_best_le th fs _ _)
    · rw [if_neg h]
      exact scanStep_best_le th fs _ _

theorem vadTrace_silent_aux (th : ℚ) :
    ∀ (fs : List ℚ) (st : VadState) (b : Nat),
      st.vad_threshold = th → st.is_speech = false →
      (fs.foldl (scanStep th) (st.speech_frames, b)).2 ≤ 9 →
      ∀ s ∈ vadTrace st fs, s.is_speech = false
  | [], _, _, _, _, _ => by
    intro s hs
    cases hs
  | p :: fs, st, b, hth, hsp, hbound => by
    intro s hs
    rw [List.foldl_cons] at hbound
    unfold vadTrace at hs
    by_cases h : th ≤ p
    · rw [show scanStep th (st.speech_frames, b) p =
          (st.speech_frames + 1, max b (st.speech_frames + 1)) from by
        unfold scanStep
        rw [if_pos h]] at hbound
      have hrun : st.speech_frames + 1 ≤ 9 :=
        le_trans (le_trans (le_max_right b (st.speech_frames + 1))
          (scanStep_best_le th fs _ _)) hbound
      obtain ⟨hsf, -, hisp0⟩ := vadUpdate_voiced st p (hth ▸ h)
      have hisp : (vadUpdate st p).is_speech = false := by
        rw [hisp0, if_neg (by unfold MIN_SPEECH_FRAMES; omega), hsp]
      rcases List.mem_cons.1 hs with hseq | hstail
      · rw [hseq]
        exact hisp
      · refine vadTrace_silent_aux th fs (vadUpdate st p)
          (max b (st.speech_frames + 1)) ?_ hisp ?_ s hstail
        · rw [vadUpdate_threshold]
          exact hth
        · rw [hsf]
          exact hbound
    · rw [show scanStep th (st.speech_frames, b) p = (0, b) from by
        unfold scanStep
        rw [if_neg h]] at hbound
      obtain ⟨hsf, -, hisp0⟩ :=
        vadUpdate_unvoiced st p (by rw [hth]; exact h)
      have hisp : (vadUpdate st p).is_speech = false := by
        rw [hisp0]
        by_cases h20 : MIN_SILENCE_FRAMES ≤ st.silence_frames + 1
        · rw [if_pos h20]
        · rw [if_neg h20]
          exact hsp
      rcases List.mem_cons.1 hs with hseq | hstail
      · rw [hseq]
        exact hisp
      · refine vadTrace_silent_aux th fs (vadUpdate st p) b ?_ hisp ?_
          s hstail
        · rw [vadUpdate_threshold]
          exact hth
        · rw [hsf]
          exact hbound

theorem runVad_all_voiced (th : ℚ) :
    ∀ (ps : List ℚ) (st : VadState),
      st.vad_threshold = th → st.silence_frames = 0 →
      st.is_speech = decide (MIN_SPEECH_FRAMES ≤ st.speech_frames) →
      (∀ p ∈ ps, th ≤ p) →
      (runVad st ps).speech_frames = st.speech_frames + ps.length ∧
      (runVad st ps).silence_frames = 0 ∧
      (runVad st ps).is_speech =
        decide (MIN_SPEECH_FRAMES ≤ st.speech_frames + ps.length)
  | [], st, _, hsil, hsp, _ => ⟨rfl, hsil, hsp⟩
  | p :: ps, st, hth, _, hsp, hv => by
    have hpv : st.vad_threshold ≤ p := hth ▸ hv p (List.mem_cons_self p ps)
    obtain ⟨hsf, hsl, hisp0⟩ := vadUpdate_voiced st p hpv
    have hisp : (vadUpdate st p).is_speech =
        decide (MIN_SPEECH_FRAMES ≤ (vadUpdate st p).speech_frames) := by
      rw [hisp0, hsf]
      by_cases h10 : MIN_SPEECH_FRAMES ≤ st.speech_frames + 1
      · rw [if_pos h10, decide_eq_true h10]
      · rw [if_neg h10, hsp,
          decide_eq_false (by unfold MIN_SPEECH_FRAMES at h10 ⊢; omega),
          decide_eq_false h10]
    have hrec := runVad_all_voiced th ps (vadUpdate st p)
      (by rw [vadUpdate_threshold]; exact hth) hsl hisp
      (fun q hq => hv q (List.mem_cons_of_mem p hq))
    have hcons : runVad st (p :: ps) = runVad (vadUpdate st p) ps := by
      unfold runVad
      rw [List.foldl_cons]
    rw [hcons]
    obtain ⟨h1, h2, h3⟩ := hrec
    rw [hsf] at h1 h3
    refine ⟨?_, h2, ?_⟩
    · rw [h1, List.length_cons]
      omega
    · rw [h3, List.length_cons]
      have : st.speech_frames + 1 + ps.length =
          st.speech_frames + (ps.length + 1) := by omega
      rw [this]

theorem runVad_unvoiced_stays_false :
    ∀ (qs : List ℚ) (st : VadState), st.is_speech = false →
      (∀ q ∈ qs, q < st.vad_threshold) →
      (runVad st qs).is_speech = false
  | [], _, hsp, _ => hsp
  | q :: qs, st, hsp, hu => by
    have hq : ¬ st.vad_threshold ≤ q :=
      not_le.2 (hu q (List.mem_cons_self q qs))
    obtain ⟨-, -, hisp0⟩ := vadUpdate_unvoiced st q hq
    have hfalse : (vadUpdate st q).is_speech = false := by
      rw [hisp0]
      by_cases h20 : MIN_SILENCE_FRAMES ≤ st.silence_frames + 1
      · rw [if_pos h20]
      · rw [if_neg h20]
        exact hsp
    have hcons : runVad st (q :: qs) = runVad (vadUpdate st q) qs := by
      unfold runVad
      rw [List.foldl_cons]
    rw [hcons]
    exact runVad_unvoiced_stays_false qs (vadUpdate st q) hfalse
      (fun r hr => by
        rw [vadUpdate_threshold]
        exact hu r (List.mem_cons_of_mem q hr))

theorem runVad_unvoiced_from_speech :
    ∀ (qs : List ℚ) (st : VadState), st.is_speech = true →
      st.silence_frames < MIN_SILENCE_FRAMES →
      (∀ q ∈ qs, q < st.vad_threshold) →
      (runVad st qs).is_speech =
        decide (st.silence_frames + qs.length < MIN_SILENCE_FRAMES)
  | [], st, hsp, hsil, _ => by
    rw [show st.silence_frames + List.length ([] : List ℚ)
        = st.silence_frames from rfl, decide_eq_true hsil]
    exact hsp
  | q :: qs, st, hsp, hsil, hu => by
    have hq : ¬ st.vad_threshold ≤ q :=
      not_le.2 (hu q (List.mem_cons_self q qs))
    obtain ⟨-, hsl, hisp0⟩ := vadUpdate_unvoiced st q hq
    have hu1 : ∀ r ∈ qs, r < (vadUpdate st q).vad_threshold := by
      intro r hr
      rw [vadUpdate_threshold]
      exact hu r (List.mem_cons_of_mem q hr)
    have hcons : runVad st (q :: qs) = runVad (vadUpdate st q) qs := by
      unfold runVad
      rw [List.foldl_cons]
    rw [hcons]
    by_cases h20 : MIN_SILENCE_FRAMES ≤ st.silence_frames + 1
    · have hfalse : (vadUpdate st q).is_speech = false := by
        rw [hisp0, if_pos h20]
      rw [runVad_unvoiced_stays_false qs (vadUpdate st q) hfalse hu1,
        List.length_cons,
        decide_eq_false (by omega : ¬ (st.silence_frames + (qs.length + 1)
          < MIN_SILENCE_FRAMES))]
    · have htrue : (vadUpdate st q).is_speech = true := by
        rw [hisp0, if_neg h20]
        exact hsp
      have hsil1 : (vadUpdate st q).silence_frames <
          MIN_SILENCE_FRAMES := by
        rw [hsl]
        omega
      have hrec := runVad_unvoiced_from_speech qs (vadUpdate st q)
        htrue hsil1 hu1
      rw [hrec, hsl, List.length_cons]
      have : st.silence_frames + 1 + qs.length =
          st.silence_frames + (qs.length + 1) := by omega
      rw [this]

/-- Claim C6: starting from the silence state, a probability sequence
whose voiced runs never reach ten frames never raises `is_speech`; an
all-voiced sequence from the initial state raises `is_speech` exactly
once ten frames have been consumed; once in speech (with the silence
counter freshly reset), `is_speech` survives exactly nineteen
consecutive unvoiced frames and falls on the twentieth; and each
observation resets the opposing counter. -/
theorem C6_vad_debounce :
    (∀ fs : List ℚ, maxVoicedRun VAD_THRESHOLD fs ≤ 9 →
      ∀ s ∈ vadTrace {} fs, s.is_speech = false) ∧
    (∀ ps : List ℚ, (∀ p ∈ ps, VAD_THRESHOLD ≤ p) →
      (runVad {} ps).is_speech = decide (10 ≤ ps.length)) ∧
    (∀ (st : VadState) (qs : List ℚ), st.is_speech = true →
      st.silence_frames = 0 → (∀ q ∈ qs, q < st.vad_threshold) →
      ((runVad st qs).is_speech = true ↔ qs.length < 20)) ∧
    (∀ (st : VadState) (p : ℚ),
      (st.vad_threshold ≤ p → (vadUpdate st p).silence_frames = 0 ∧
        (vadUpdate st p).speech_frames = st.speech_frames + 1) ∧
      (p < st.vad_threshold → (vadUpdate st p).speech_frames = 0 ∧
        (vadUpdate st p).silence_frames = st.silence_frames + 1)) := by
  refine ⟨?_, ?_, ?_, ?_⟩
  · intro fs hmax s hs
    exact vadTrace_silent_aux VAD_THRESHOLD fs {} 0 rfl rfl hmax s hs
  · intro ps hv
    have h :=
      (runVad_all_voiced VAD_THRESHOLD ps {} rfl rfl (by decide) hv).2.2
    rw [h]
    show decide (MIN_SPEECH_FRAMES ≤ 0 + ps.length) =
      decide (10 ≤ ps.length)
    rw [Nat.zero_add]
    rfl
  · intro st qs hsp hsil hu
    have h := runVad_unvoiced_from_speech qs st hsp
      (by rw [hsil]; decide) hu
    rw [h, hsil]
    show decide (0 + qs.length < MIN_SILENCE_FRAMES) = true ↔
      qs.length < 20
    rw [Nat.zero_add]
    constructor
    · intro hd
      exact of_decide_eq_true hd
    · intro hlt
      exact decide_eq_true hlt
  · intro st p
    constructor
    · intro hv
      unfold vadUpdate
      rw [if_pos hv]
      exact ⟨rfl, rfl⟩
    · intro hu
      unfold vadUpdate
      rw [if_neg (not_le.2 hu)]
      exact ⟨rfl, rfl⟩

/-- Concrete instantiation of `C6_vad_debounce`: nine voiced frames
leave `is_speech` false everywhere along the trace; ten voiced frames
raise it; twenty unvoiced frames from a fresh speech state lower it;
and a voiced observation resets the silence counter of the initial
state. -/
theorem C6_vad_debounce_witness :
    maxVoicedRun VAD_THRESHOLD (List.replicate 9 1) ≤ 9 ∧
    (∀ p ∈ List.replicate 10 (1 : ℚ), VAD_THRESHOLD ≤ p) ∧
    ((runVad { is_speech := true, speech_frames := 10, silence_frames := 0 } (List.replicate 20 0)).is_speech = true ↔ (List.replicate 20 (0 : ℚ)).length < 20) :=
  ⟨by decide, by decide,
   C6_vad_debounce.2.2.1
     { is_speech := true, speech_frames := 10, silence_frames := 0 }
     (List.replicate 20 0) rfl rfl (by decide)⟩

theorem unpackInt16_length :
    ∀ bs : Bytes, (unpackInt16 bs).length = bs.length / 2
  | [] => rfl
  | [b] => by simp [unpackInt16]
  | b0 :: b1 :: rest => by
    show (unpackInt16 (b0 :: b1 :: rest)).length = (rest.length + 2) / 2
    unfold unpackInt16
    rw [List.length_cons, unpackInt16_length rest,
      Nat.add_div_right _ (by norm_num)]

theorem packInt16_length :
    ∀ xs : List Int, (packInt16 xs).length = 2 * xs.length
  | [] => rfl
  | x :: xs => by
    unfold packInt16
    rw [List.map_cons, List.flatten_cons, List.length_append]
    have h := packInt16_length xs
    unfold packInt16 at h
    rw [h]
    show 2 + 2 * xs.length = 2 * (xs.length + 1)
    omega

theorem sumRows_length (len : Nat) :
    ∀ (rows : List (List ℚ)) (acc : List ℚ), acc.length = len →
      (∀ r ∈ rows, r.length = len) →
      (rows.foldl addRows acc).length = len
  | [], _, hacc, _ => hacc
  | r :: rows, acc, hacc, hall => by
    rw [List.foldl_cons]
    refine sumRows_length len rows (addRows acc r) ?_
      (fun q hq => hall q (List.mem_cons_of_mem r hq))
    unfold addRows
    rw [List.length_zipWith, hacc, hall r (List.mem_cons_self r rows)]
    exact min_self len

theorem colMeans_length (len : Nat) (rows : List (List ℚ))
    (hall : ∀ r ∈ rows, r.length = len) :
    (colMeans len rows).length = len := by
  unfold colMeans sumRows
  rw [List.length_map]
  exact sumRows_length len rows _ (List.length_replicate len 0) hall

theorem denoised_length (samples : List ℚ) (rows : List (List ℚ))
    (hall : rows.all (fun r => r.length == samples.length) = true) :
    (List.zipWith (fun s n => clip1 (s - n)) samples
      ((colMeans samples.length rows).map
        (fun x => x * (1 / 10)))).length = samples.length := by
  rw [List.length_zipWith, List.length_map, colMeans_length]
  · exact min_self _
  · intro r hr
    exact eq_of_beq (List.all_eq_true.1 hall r hr)

theorem processFrameFallback_length (buffer : List (List ℚ))
    (frame : Bytes) (heven : frame.length % 2 = 0) :
    (processFrameFallback buffer frame).2.1.length = frame.length := by
  unfold processFrameFallback
  rw [if_neg (by rw [heven]; exact fun h => h rfl)]
  dsimp only
  have hout : ∀ denoised : List ℚ, denoised.length = frame.length / 2 →
      (packInt16 (denoised.map (fun x => toInt16 (x * 32768)))).length =
        frame.length := by
    intro denoised hd
    rw [packInt16_length, List.length_map, hd, Nat.mul_div_cancel']
    exact Nat.dvd_iff_mod_eq_zero.mpr heven
  generalize hs : (unpackInt16 frame).map
    (fun (i : Int) => (i : ℚ) / 32768) = samples
  have hsamples : samples.length = frame.length / 2 := by
    rw [← hs, List.length_map, unpackInt16_length]
  generalize (if DENOISE_BUFFER < (buffer ++ [samples]).length then
    (buffer ++ [samples]).drop 1 else buffer ++ [samples]) = buf2
  by_cases h2 : 2 ≤ buf2.length
  · rw [if_pos h2]
    by_cases hguard : buf2.dropLast.all
        (fun r => r.length == samples.length) = true
    · rw [if_pos hguard]
      refine hout _ ?_
      rw [denoised_length samples buf2.dropLast hguard]
      exact hsamples
    · rw [if_neg hguard]
  · rw [if_neg h2]
    exact hout _ hsamples

theorem processAudio_length (st : ProcState) (audio : Bytes) :
    (processAudio st audio).2.1.length = FRAME_SIZE * 2 := by
  unfold processAudio
  have hpad : (if audio.length ≠ FRAME_SIZE * 2 then
      (if audio.length < FRAME_SIZE * 2 then
        audio ++ List.replicate (FRAME_SIZE * 2 - audio.length) 0
      else audio.take (FRAME_SIZE * 2))
      else audio).length = FRAME_SIZE * 2 := by
    by_cases hne : audio.length ≠ FRAME_SIZE * 2
    · rw [if_pos hne]
      by_cases hlt : audio.length < FRAME_SIZE * 2
      · rw [if_pos hlt, List.length_append, List.length_replicate]
        omega
      · rw [if_neg hlt, List.length_take]
        omega
    · rw [if_neg hne]
      omega
  rw [processFrameFallback_length _ _ (by rw [hpad]; decide), hpad]

theorem processBuffer_fold_length :
    ∀ (frames : List Bytes) (st : ProcState) (acc : Bytes),
      (frames.foldl (fun acc f =>
        ((processAudio acc.1 f).1,
         acc.2 ++ (processAudio acc.1 f).2.1)) (st, acc)).2.length =
        acc.length + (FRAME_SIZE * 2) * frames.length
  | [], _, _ => by simp
  | f :: frames, st, acc => by
    rw [List.foldl_cons, processBuffer_fold_length frames _ _,
      List.length_append, processAudio_length, List.length_cons]
    ring

/-- Claim C7: `process_buffer` returns a denoised buffer of exactly the
input buffer's length, for every input buffer and every starting
state: full 960-byte frames map to 960-byte outputs and the zero-padded
trailing remainder contributes only its valid prefix. -/
theorem C7_buffer_length (st : ProcState) (audio_buffer : Bytes) :
    (processBuffer st audio_buffer).2.length = audio_buffer.length := by
  unfold processBuffer
  have h960 : FRAME_SIZE * 2 = 960 := rfl
  have hdm := Nat.div_add_mod audio_buffer.length 960
  have hfold := processBuffer_fold_length
    ((List.range (audio_buffer.length / (FRAME_SIZE * 2))).map
      (fun i => (audio_buffer.drop (i * (FRAME_SIZE * 2))).take
        (FRAME_SIZE * 2)))
    st []
  simp only [List.length_map, List.length_range, List.length_nil,
    h960] at hfold
  simp only [h960]
  by_cases hrem : 0 < audio_buffer.length % 960
  · rw [if_pos hrem, List.length_append, List.length_take, hfold,
      processAudio_length, List.length_drop]
    simp only [h960]
    have h1 : audio_buffer.length / 960 * 960 ≤ audio_buffer.length :=
      Nat.div_mul_le_self _ _
    omega
  · rw [if_neg hrem, hfold]
    omega

end VoiceTheorems

section CryptoTheorems

open Crypto

set_option maxRecDepth 1000000

set_option maxHeartbeats 4000000

/-- Known-answer test for the embedded SHA-256: the digest of the empty
string is the standard `e3b0c442...` vector, tying the Lean compression
function to the `hashlib.sha256` the source calls. -/
theorem sha256_empty_vector : sha256 (utf8Encode "") =
    [0xe3, 0xb0, 0xc4, 0x42, 0x98, 0xfc, 0x1c, 0x14, 0x9a, 0xfb, 0xf4, 0xc8,
     0x99, 0x6f, 0xb9, 0x24, 0x27, 0xae, 0x41, 0xe4, 0x64, 0x9b, 0x93, 0x4c,
     0xa4, 0x95, 0x99, 0x1b, 0x78, 0x52, 0xb8, 0x55] := by decide

/-- `generate_keypair` on the concrete private bytes `c4priv` yields the
concrete base64 pair used throughout the C4 scenario. -/
theorem generate_keypair_c4 : generate_keypair c4priv = (c4pubB64, c4privB64) := by
  decide

/-- `encrypt_message "hello"` under the C4 public key and nonces succeeds
and produces exactly the envelope `c4envDict`. -/
theorem encrypt_message_c4 :
    encrypt_message "hello" c4pubB64 c4secret c4nonce24 c4nonce16 =
      .ok c4envDict := by decide

/-- Field lookup of `kyber_ciphertext` in the C4 envelope. -/
theorem envGet_c4_kct : envGet c4envDict "kyber_ciphertext" = some c4kctB64 := by
  decide

/-- Field lookup of `encrypted_message` in the C4 envelope. -/
theorem envGet_c4_em : envGet c4envDict "encrypted_message" = some c4emB64 := by
  decide

/-- Base64 decoding of the C4 KEM-ciphertext field. -/
theorem b64decode_c4kct : b64decode c4kctB64 = some c4kct := by decide

/-- Base64 decoding of the C4 AEAD-blob field. -/
theorem b64decode_c4em : b64decode c4emB64 = some c4em := by decide

/-- The fallback `decapsulate` on the C4 ciphertext returns
`sha256(ciphertext ++ private_key)`, not the encapsulated secret. -/
theorem kyberDecapsulate_c4 :
    kyberDecapsulate c4kct c4privB64 = some c4badSecret := by decide

/-- The fallback AEAD decryption of the C4 blob under the wrong
decapsulated secret fails its HMAC tag check. -/
theorem xchachaDecrypt_c4 : xchachaDecrypt c4em c4badSecret = none := by decide

/-- The `try` body of `decrypt_message` on the C4 envelope raises
`ValueError` (the AEAD returned `None`). -/
theorem decryptBody_c4 :
    decryptBody (some c4envDict) c4privB64 = .error PyErr.valueError := by
  unfold decryptBody
  simp only [envGet_c4_kct, envGet_c4_em, b64decode_c4kct, b64decode_c4em,
    kyberDecapsulate_c4, xchachaDecrypt_c4]

/-- `CryptoFallback.decrypt` on the C4 envelope raises `KeyError`: the
envelope has no `nonce` field. -/
theorem cryptoFallbackDecrypt_c4 :
    cryptoFallbackDecrypt (some c4envDict) c4privB64 =
      .error PyErr.keyError := by decide

/-- `decrypt_message` on the C4 envelope: the body's `ValueError` is
caught and the fallback then raises `KeyError` out of the handler. -/
theorem decrypt_message_c4 :
    decrypt_message (some c4envDict) c4privB64 = .error PyErr.keyError := by
  unfold decrypt_message
  rw [decryptBody_c4]
  exact cryptoFallbackDecrypt_c4

/-- C4: the crypto round-trip FAILS in the only branch present in the
repository (`KYBER_AVAILABLE = False`, `NACL_AVAILABLE = False`).  For the
keypair generated from `c4priv`, `encrypt_message "hello"` succeeds and
produces the envelope `c4envDict`, but `decrypt_message` on that very
envelope with the matching private key does not return `"hello"`: the
fallback `decapsulate` cannot recover the KEM secret, the AEAD tag check
fails, and the `CryptoFallback.decrypt` fallback then raises an uncaught
`KeyError`.  This refutes the spec's round-trip law
`decrypt(encrypt(payload, pub), priv) == payload`. -/
theorem C4_roundtrip_fails :
    generate_keypair c4priv = (c4pubB64, c4privB64) ∧
    encrypt_message "hello" c4pubB64 c4secret c4nonce24 c4nonce16 =
      .ok c4envDict ∧
    decrypt_message (some c4envDict) c4privB64 = .error PyErr.keyError ∧
    decrypt_message (some c4envDict) c4privB64 ≠ .ok "hello" := by
  refine ⟨generate_keypair_c4, encrypt_message_c4, decrypt_message_c4, ?_⟩
  rw [decrypt_message_c4]
  decide

/-- Field lookup of `nonce` in the malformed C5 envelope. -/
theorem envGet_c5_nonce :
    envGet c5env "nonce" = some "AwMDAwMDAwMDAwMDAwMDAw==" := by decide

/-- Field lookup of `ciphertext` in the malformed C5 envelope. -/
theorem envGet_c5_ct : envGet c5env "ciphertext" = some "ScY7xA==" := by decide

/-- Base64 decoding of the C5 nonce field: sixteen `3` bytes. -/
theorem b64decode_c5nonce : b64decode "AwMDAwMDAwMDAwMDAwMDAw==" =
    some [3, 3, 3, 3, 3, 3, 3, 3, 3, 3, 3, 3, 3, 3, 3, 3] := by decide

/-- Base64 decoding of the C5 ciphertext field. -/
theorem b64decode_c5ct : b64decode "ScY7xA==" = some [73, 198, 59, 196] := by
  decide

/-- Base64 decoding of the C4/C5 private key: the bytes `0..31`. -/
theorem b64decode_c4priv : b64decode c4privB64 =
    some [0, 1, 2, 3, 4, 5, 6, 7, 8, 9, 10, 11, 12, 13, 14, 15, 16, 17, 18,
      19, 20, 21, 22, 23, 24, 25, 26, 27, 28, 29, 30, 31] := by decide

/-- `key = private_key[:32]` on the 32-byte decoded private key is the
identity. -/
theorem take32_c4priv : List.take 32
    ([0, 1, 2, 3, 4, 5, 6, 7, 8, 9, 10, 11, 12, 13, 14, 15, 16, 17, 18,
      19, 20, 21, 22, 23, 24, 25, 26, 27, 28, 29, 30, 31] : Bytes) =
    [0, 1, 2, 3, 4, 5, 6, 7, 8, 9, 10, 11, 12, 13, 14, 15, 16, 17, 18,
      19, 20, 21, 22, 23, 24, 25, 26, 27, 28, 29, 30, 31] := by decide

/-- Length of the C5 ciphertext. -/
theorem length_c5ct : List.length ([73, 198, 59, 196] : Bytes) = 4 := rfl

/-- The first keystream block of the fallback cipher for the C5 seed
(private key bytes followed by the nonce). -/
theorem keystream_c5 : keystream
    (([0, 1, 2, 3, 4, 5, 6, 7, 8, 9, 10, 11, 12, 13, 14, 15, 16, 17, 18,
      19, 20, 21, 22, 23, 24, 25, 26, 27, 28, 29, 30, 31] : Bytes) ++
      [3, 3, 3, 3, 3, 3, 3, 3, 3, 3, 3, 3, 3, 3, 3, 3]) 4 =
    [38, 169, 75, 183, 182, 116, 110, 236, 22, 164, 20, 193, 221, 153, 198,
     13, 28, 84, 228, 111, 104, 81, 105, 102, 25, 87, 47, 77, 87, 242, 11,
     225] := by decide

/-- XOR of the C5 ciphertext against the keystream: the bytes of
`"oops"`. -/
theorem xorBytes_c5 : xorBytes [73, 198, 59, 196]
    [38, 169, 75, 183, 182, 116, 110, 236, 22, 164, 20, 193, 221, 153, 198,
     13, 28, 84, 228, 111, 104, 81, 105, 102, 25, 87, 47, 77, 87, 242, 11,
     225] = [111, 111, 112, 115] := by decide

/-- UTF-8 decoding of the recovered plaintext bytes. -/
theorem utf8Decode_oops : utf8Decode [111, 111, 112, 115] = some "oops" := by
  decide

/-- `CryptoFallback.decrypt` on the attacker-controlled C5 envelope
succeeds and returns the unauthenticated plaintext `"oops"`. -/
theorem cryptoFallbackDecrypt_c5 :
    cryptoFallbackDecrypt (some c5env) c4privB64 = .ok "oops" := by
  unfold cryptoFallbackDecrypt
  simp only [envGet_c5_nonce, envGet_c5_ct, b64decode_c5nonce, b64decode_c5ct,
    b64decode_c4priv, take32_c4priv, length_c5ct, keystream_c5, xorBytes_c5,
    utf8Decode_oops]

/-- The `try` body of `decrypt_message` on the C5 envelope raises
`KeyError`: the malformed envelope has no `kyber_ciphertext` field. -/
theorem decryptBody_c5 :
    decryptBody (some c5env) c4privB64 = .error PyErr.keyError := by decide

/-- C5: a malformed envelope does NOT make `decrypt_message` fail.  The
C5 envelope is not the specified `kyber_ciphertext`/`encrypted_message`
container (the `try` body raises `KeyError`), yet `decrypt_message`
falls back to the unauthenticated `CryptoFallback.decrypt` and returns
the garbage plaintext `"oops"` successfully instead of raising a
`DecryptError` (no such exception class exists in the source at all).
This refutes the spec's error-handling contract. -/
theorem C5_malformed_envelope_yields_garbage :
    decryptBody (some c5env) c4privB64 = .error PyErr.keyError ∧
    decrypt_message (some c5env) c4privB64 = .ok "oops" := by
  refine ⟨decryptBody_c5, ?_⟩
  unfold decrypt_message
  rw [decryptBody_c5]
  exact cryptoFallbackDecrypt_c5

end CryptoTheorems

end MeshTalk
